import Mathlib

/-!
Shallow embedding of the FPL dashboard's core computations
(`src/utils.py`: `calculate_league_table`, `generate_match_commentary`;
plus the score-derivation slices of the two match-rendering pages,
`src/Home.py` `render_matches_page` and `src/fpl/pages/1_matches.py` `main`).

Python dicts are modelled as insertion-ordered association lists with
unique keys (`dictInsert` overwrites in place, as a Python dict does);
`dict.get` is `dictFind`, and a raising subscript `d[k]` is `updateEntry` /
an explicit `Except` lookup.  `random.choice` is modelled by an extra
natural-number argument interpreted as the index drawn (mod pool size).
-/

namespace FPL

/-- Python dict assignment `d[k] = v`: overwrite in place when the key is
present, else append at the end (insertion order preserved). -/
def dictInsert {α : Type} (l : List (Nat × α)) (k : Nat) (v : α) : List (Nat × α) :=
  if l.any (fun p => p.1 = k) then
    l.map (fun p => if p.1 = k then (k, v) else p)
  else l ++ [(k, v)]

/-- Python `d.get(k)`: the value at `k`, if present. -/
def dictFind {α : Type} (l : List (Nat × α)) (k : Nat) : Option α :=
  (l.find? (fun p => p.1 = k)).map (fun p => p.2)

/-- Python `d.get(k, dflt)`. -/
def dictGetD {α : Type} (l : List (Nat × α)) (k : Nat) (dflt : α) : α :=
  (dictFind l k).getD dflt

/-- Python `d[k] = f(d[k])` (the `+=` updates of `calculate_league_table`):
`KeyError` when the key is absent. -/
def updateEntry {α : Type} (l : List (Nat × α)) (k : Nat) (f : α → α) :
    Except String (List (Nat × α)) :=
  if l.any (fun p => p.1 = k) then
    Except.ok (l.map (fun p => if p.1 = k then (p.1, f p.2) else p))
  else
    Except.error ("KeyError: " ++ toString k)

/-- `random.choice(pool)` with the drawn index supplied explicitly. -/
def choice (l : List String) (r : Nat) : String :=
  l.getD (r % l.length) ""

/-! ## Data model of the league-table pipeline (`src/utils.py` lines 23-197)

`calculate_league_table(teams, fixtures)` receives the raw bootstrap
records: clubs as dicts with `id`, `name`, `code`, and fixtures as dicts
with `team_h`, `team_a`, `team_h_score`, `team_a_score`, `event`,
`finished_provisional` (and `started`, unused by the table builder). -/

structure Club where
  id : Nat
  name : String
  code : Nat
  deriving Repr, DecidableEq

structure FixtureRec where
  team_h : Nat
  team_a : Nat
  team_h_score : Int
  team_a_score : Int
  event : Nat
  started : Bool
  finished_provisional : Bool
  deriving Repr, DecidableEq

/-- One entry of the `FormDetails` list (`src/utils.py` lines 68-74 etc.):
the `score` field stores the Python f-string `f"{own}-{opp}"`. -/
structure FormDetail where
  result : Char
  opponent : String
  score : String
  gw : Nat
  home : Bool
  deriving Repr, DecidableEq

/-- One value of the `table` dict (`src/utils.py` lines 29-42). -/
structure Row where
  logo : String
  team : String
  p : Nat
  w : Nat
  d : Nat
  l : Nat
  gf : Int
  ga : Int
  gd : Int
  pts : Nat
  form : List Char
  formDetails : List FormDetail
  deriving Repr, DecidableEq

def scoreStr (a b : Int) : String := toString a ++ "-" ++ toString b

def initRow (c : Club) : Row :=
  { logo := "https://resources.premierleague.com/premierleague/badges/50/t"
      ++ toString c.code ++ ".png"
    team := c.name
    p := 0, w := 0, d := 0, l := 0
    gf := 0, ga := 0, gd := 0, pts := 0
    form := [], formDetails := [] }

/-- `table = {team['id']: {...} for team in teams}` (lines 29-42). -/
def initTable (teams : List Club) : List (Nat × Row) :=
  teams.foldl (fun t c => dictInsert t c.id (initRow c)) []

/-- `team_names = {team['id']: team['name'] for team in teams}` (line 26). -/
def teamNames (teams : List Club) : List (Nat × String) :=
  teams.foldl (fun t c => dictInsert t c.id c.name) []

/-- The body of the fixtures loop (lines 44-127): stat updates for both
participants, then the win/draw/loss branch, in the source's statement
order (so a missing home id raises before a missing away id). -/
def applyResult (names : List (Nat × String)) (t : List (Nat × Row))
    (fx : FixtureRec) : Except String (List (Nat × Row)) :=
  if fx.finished_provisional then do
    let hs := fx.team_h_score
    let aw := fx.team_a_score
    let t ← updateEntry t fx.team_h (fun r =>
      { r with p := r.p + 1, gf := r.gf + hs, ga := r.ga + aw, gd := r.gd + (hs - aw) })
    let t ← updateEntry t fx.team_a (fun r =>
      { r with p := r.p + 1, gf := r.gf + aw, ga := r.ga + hs, gd := r.gd + (aw - hs) })
    if hs > aw then do
      let t ← updateEntry t fx.team_h (fun r =>
        { r with w := r.w + 1, pts := r.pts + 3, form := r.form ++ ['W'],
                 formDetails := r.formDetails ++
                   [⟨'W', dictGetD names fx.team_a "Unknown", scoreStr hs aw, fx.event, true⟩] })
      updateEntry t fx.team_a (fun r =>
        { r with l := r.l + 1, form := r.form ++ ['L'],
                 formDetails := r.formDetails ++
                   [⟨'L', dictGetD names fx.team_h "Unknown", scoreStr aw hs, fx.event, false⟩] })
    else if aw > hs then do
      let t ← updateEntry t fx.team_a (fun r =>
        { r with w := r.w + 1, pts := r.pts + 3, form := r.form ++ ['W'],
                 formDetails := r.formDetails ++
                   [⟨'W', dictGetD names fx.team_h "Unknown", scoreStr aw hs, fx.event, false⟩] })
      updateEntry t fx.team_h (fun r =>
        { r with l := r.l + 1, form := r.form ++ ['L'],
                 formDetails := r.formDetails ++
                   [⟨'L', dictGetD names fx.team_a "Unknown", scoreStr hs aw, fx.event, true⟩] })
    else do
      let t ← updateEntry t fx.team_h (fun r =>
        { r with d := r.d + 1, pts := r.pts + 1, form := r.form ++ ['D'],
                 formDetails := r.formDetails ++
                   [⟨'D', dictGetD names fx.team_a "Unknown", scoreStr hs aw, fx.event, true⟩] })
      updateEntry t fx.team_a (fun r =>
        { r with d := r.d + 1, pts := r.pts + 1, form := r.form ++ ['D'],
                 formDetails := r.formDetails ++
                   [⟨'D', dictGetD names fx.team_h "Unknown", scoreStr aw hs, fx.event, false⟩] })
  else Except.ok t

/-- The whole fixtures loop (lines 44-127). -/
def leagueAggregate (teams : List Club) (fixtures : List FixtureRec) :
    Except String (List (Nat × Row)) :=
  fixtures.foldlM (applyResult (teamNames teams)) (initTable teams)

/-! ## Sorting (lines 134-140): `df.sort_values(by=['Pts','GD','GF'],
ascending=False)`.  With several `by` columns pandas uses a stable
lexicographic sort (ties keep the original row order), modelled by a
stable insertion sort on the key `(Pts, GD, GF)` ordered descending. -/

/-- Descending lexicographic comparison on `(Pts, GD, GF)`. -/
def keyGe (a b : Nat × Int × Int) : Bool :=
  decide (b.1 < a.1) ||
    (decide (a.1 = b.1) &&
      (decide (b.2.1 < a.2.1) ||
        (decide (a.2.1 = b.2.1) && decide (b.2.2 ≤ a.2.2))))

def insertGe {α : Type} (ge : α → α → Bool) (x : α) : List α → List α
  | [] => [x]
  | y :: ys => if ge x y then x :: y :: ys else y :: insertGe ge x ys

/-- Stable insertion sort: `x` goes before the first element it is `ge` to,
so elements the relation does not separate keep their input order
(Python's `sorted`/`list.sort` and pandas' multi-column lexsort are
stable in the same sense). -/
def sortByGe {α : Type} (ge : α → α → Bool) : List α → List α
  | [] => []
  | x :: xs => insertGe ge x (sortByGe ge xs)

def rowKey (r : Row) : Nat × Int × Int := (r.pts, r.gd, r.gf)

/-- `df.sort_values(by=['Pts','GD','GF'], ascending=False)` on the main table. -/
def sortTable (l : List (Nat × Row)) : List (Nat × Row) :=
  sortByGe (fun a b => keyGe (rowKey a.2) (rowKey b.2)) l

/-! ## Previous positions (lines 142-185). -/

/-- One value of the `prev_table` dict (line 153). -/
structure PrevEntry where
  pts : Nat
  gd : Int
  gf : Int
  deriving Repr, DecidableEq

def initPrevTable (teams : List Club) : List (Nat × PrevEntry) :=
  teams.foldl (fun t c => dictInsert t c.id ⟨0, 0, 0⟩) []

/-- `completed_gws` (lines 144-147): the events of finished fixtures. -/
def completedEvents (fixtures : List FixtureRec) : List Nat :=
  (fixtures.filter (fun fx => fx.finished_provisional)).map (fun fx => fx.event)

/-- `max(completed_gws)` over the (nonempty) event list. -/
def maxEvent (l : List Nat) : Nat := l.foldl Nat.max 0

/-- The body of the previous-table loop (lines 155-173). -/
def applyPrevResult (latest : Nat) (t : List (Nat × PrevEntry))
    (fx : FixtureRec) : Except String (List (Nat × PrevEntry)) :=
  if fx.finished_provisional && decide (fx.event < latest) then do
    let hs := fx.team_h_score
    let aw := fx.team_a_score
    let t ← updateEntry t fx.team_h (fun e =>
      { e with gf := e.gf + hs, gd := e.gd + (hs - aw) })
    let t ← updateEntry t fx.team_a (fun e =>
      { e with gf := e.gf + aw, gd := e.gd + (aw - hs) })
    if hs > aw then
      updateEntry t fx.team_h (fun e => { e with pts := e.pts + 3 })
    else if aw > hs then
      updateEntry t fx.team_a (fun e => { e with pts := e.pts + 3 })
    else do
      let t ← updateEntry t fx.team_h (fun e => { e with pts := e.pts + 1 })
      updateEntry t fx.team_a (fun e => { e with pts := e.pts + 1 })
  else Except.ok t

def prevAggregate (teams : List Club) (fixtures : List FixtureRec)
    (latest : Nat) : Except String (List (Nat × PrevEntry)) :=
  fixtures.foldlM (applyPrevResult latest) (initPrevTable teams)

def prevKey (e : PrevEntry) : Nat × Int × Int := (e.pts, e.gd, e.gf)

/-- `prev_df.sort_values(by=['Pts','GD','GF'], ascending=False)` (line 178). -/
def sortPrevTable (l : List (Nat × PrevEntry)) : List (Nat × PrevEntry) :=
  sortByGe (fun a b => keyGe (prevKey a.2) (prevKey b.2)) l

/-- `prev_positions[team_id]` (lines 179-183): 1-based rank of a club id in
the sorted previous table.  Every club id occurs in it, so the
not-found value (`length + 1`) is never produced (Python would map the
id to NaN there). -/
def prevRankOf (sorted : List (Nat × PrevEntry)) (id : Nat) : Nat :=
  sorted.findIdx (fun e => e.1 = id) + 1

/-! ## Ranked output rows. -/

/-- A row of the final DataFrame before the closing column selection
(line 195) drops `team_id`. -/
structure RankedRow where
  pos : Nat
  prevPos : Nat
  teamId : Nat
  row : Row
  deriving Repr, DecidableEq

/-- `df.index += 1` rank assignment (lines 137-140): positions `start`,
`start+1`, ... down the sorted list. -/
def addPos : Nat → List (Nat × Row) → List (Nat × Nat × Row)
  | _, [] => []
  | i, e :: es => (i, e) :: addPos (i + 1) es

/-- `calculate_league_table` up to (and including) the `PrevPos` column,
keeping `team_id` (lines 23-185).  An empty clubs list makes
`pd.DataFrame(table.values())` a frame with no columns, so line 135's
`sort_values(by=['Pts','GD','GF'])` raises `KeyError: 'Pts'`; the fixture
loop runs (and can raise its own `KeyError`) before that point. -/
def calcRanked (teams : List Club) (fixtures : List FixtureRec) :
    Except String (List RankedRow) := do
  let agg ← leagueAggregate teams fixtures
  if teams.isEmpty then
    Except.error "KeyError: Pts"
  else
    let ranked := addPos 1 (sortTable agg)
    match completedEvents fixtures with
    | [] =>
      Except.ok (ranked.map (fun e => ⟨e.1, e.1, e.2.1, e.2.2⟩))
    | ev :: evs => do
      let latest := maxEvent (ev :: evs)
      let pagg ← prevAggregate teams fixtures latest
      let sortedPrev := sortPrevTable pagg
      Except.ok (ranked.map (fun e => ⟨e.1, prevRankOf sortedPrev e.2.1, e.2.1, e.2.2⟩))

/-- `format_form` (lines 188-190): last five results as glyphs. -/
def format_form (form : List Char) : String :=
  String.mk ((form.drop (form.length - 5)).map
    (fun c => if c = 'W' then '✅' else if c = 'D' then '➖' else '❌'))

/-- A row of the returned DataFrame (line 195's column order). -/
structure OutRow where
  pos : Nat
  prevPos : Nat
  logo : String
  team : String
  p : Nat
  w : Nat
  d : Nat
  l : Nat
  gf : Int
  ga : Int
  gd : Int
  pts : Nat
  form : String
  formDetails : List FormDetail
  deriving Repr, DecidableEq

def projectOut (r : RankedRow) : OutRow :=
  { pos := r.pos, prevPos := r.prevPos, logo := r.row.logo, team := r.row.team
    p := r.row.p, w := r.row.w, d := r.row.d, l := r.row.l
    gf := r.row.gf, ga := r.row.ga, gd := r.row.gd, pts := r.row.pts
    form := format_form r.row.form, formDetails := r.row.formDetails }

/-- `calculate_league_table(teams, fixtures)` (`src/utils.py` lines 23-197). -/
def calculate_league_table (teams : List Club) (fixtures : List FixtureRec) :
    Except String (List OutRow) :=
  (calcRanked teams fixtures).map (fun l => l.map projectOut)

/-! ## Data model of the head-to-head side (`classes.py` record types, with
fields as constructed in `src/fpl/data_loader.py` and used in
`src/utils.py` / `src/Home.py`). -/

structure Player where
  id : Nat
  club_id : Nat
  name : String
  element_type : Nat
  deriving Repr, DecidableEq

/-- Live per-player stats, constructed in `src/fpl/data_loader.py`
lines 91-100 as `LivePlayerData(id, total_points, goals, assists, minutes)`. -/
structure LivePlayerData where
  id : Nat
  points : Int
  goals : Int
  assists : Int
  minutes : Int
  deriving Repr, DecidableEq

structure FplTeam where
  id : Nat
  entry_id : Nat
  manager_name : String
  team_name : String
  players : List Player
  deriving Repr, DecidableEq

structure ElementType where
  id : Nat
  position_name : String
  deriving Repr, DecidableEq

/-- A live real-world fixture as built in `src/Home.py` lines 136-144. -/
structure Fixture where
  home_team : Nat
  away_team : Nat
  home_score : Int
  away_score : Int
  started : Bool
  finished_provisional : Bool
  deriving Repr, DecidableEq

/-- A league matchup record as built in `src/Home.py` line 152:
`FplMatchup(league_entry_1, league_entry_1_points, league_entry_2,
league_entry_2_points)`. -/
structure FplMatchup where
  fpl_team_id_1 : Nat
  team_1_points : Int
  fpl_team_id_2 : Nat
  team_2_points : Int
  deriving Repr, DecidableEq

/-! ## `generate_match_commentary` (`src/utils.py` lines 199-357).

The two `random.choice` calls (one for the base line, one for the
epilogue) are modelled by the extra arguments `r1` and `r2`: the index
drawn, reduced mod the pool size by `choice`. -/

/-- The draw pool (lines 219-227). -/
def draw_comments (team1 team2 : FplTeam) (p1 p2 : Int) : List String :=
  [ "Absolute stalemate at " ++ toString p1 ++ "-" ++ toString p2 ++ ". Both "
      ++ team1.manager_name ++ " and " ++ team2.manager_name
      ++ " are equally mediocre this week.",
    "Tied at " ++ toString p1
      ++ ". Two managers, zero imagination. At least they're consistently disappointing.",
    "A thrilling " ++ toString p1 ++ "-" ++ toString p2
      ++ " draw. And by thrilling, we mean both teams have benched their only good players.",
    "Dead even at " ++ toString p1 ++ ". Proof that misery loves company.",
    toString p1 ++ " apiece. Neither " ++ team1.manager_name ++ " nor "
      ++ team2.manager_name ++ " deserves to win this snoozefest.",
    "A perfect " ++ toString p1 ++ "-" ++ toString p2
      ++ " split. Like watching two people argue about who's less talented.",
    "Congratulations to both teams for being entirely forgettable this gameweek." ]

/-- The defender/goalkeeper haul pool (lines 279-287). -/
def haul_comments (winning losing : FplTeam) (pl : Player) (d : LivePlayerData)
    (position : String) : List String :=
  [ winning.manager_name ++ " is absolutely demolishing " ++ losing.manager_name
      ++ ", courtesy of " ++ toString d.points ++ " points from " ++ pl.name
      ++ ", a " ++ position ++ " who has no business scoring that many points.",
    losing.manager_name ++ " is getting embarrassed by a " ++ position ++ ". "
      ++ pl.name ++ " with " ++ toString d.points
      ++ " points is single-handedly ending " ++ losing.manager_name
      ++ "'s hopes and dreams.",
    "Imagine losing because your opponent's " ++ position ++ " (" ++ pl.name
      ++ ") hauls " ++ toString d.points ++ " points. That's "
      ++ losing.manager_name ++ "'s reality right now.",
    "A " ++ position ++ " with " ++ toString d.points ++ " points? " ++ pl.name
      ++ " is making " ++ losing.manager_name ++ " look fucking silly.",
    losing.manager_name ++ " getting bodied by " ++ pl.name ++ ", a " ++ position
      ++ ". You hate to see it. Actually, no you don't.",
    pl.name ++ " (" ++ position ++ ") decided to go off for " ++ toString d.points
      ++ " points. " ++ losing.manager_name ++ " is in shambles.",
    "Of course " ++ winning.manager_name ++ "'s " ++ position ++ " hauls "
      ++ toString d.points ++ ". " ++ losing.manager_name
      ++ ", the universe is laughing at you." ]

/-- The `point_diff >= 30` pool (lines 290-298). -/
def blowout_comments (winning losing : FplTeam) (pd : Nat) : List String :=
  [ winning.manager_name ++ " is absolutely annihilating " ++ losing.manager_name
      ++ ". This isn't a match, it's a massacre.",
    "Someone check on " ++ losing.manager_name ++ ". Down by " ++ toString pd
      ++ " points, they might need professional help.",
    losing.manager_name ++ " showed up to a knife fight with a spoon. "
      ++ winning.manager_name ++ " is up by " ++ toString pd ++ ".",
    "This is brutal. " ++ winning.manager_name ++ " leads by " ++ toString pd
      ++ ". " ++ losing.manager_name ++ " might want to delete the app.",
    losing.manager_name
      ++ " is experiencing what experts call 'getting absolutely rinsed.' Down "
      ++ toString pd ++ " with dignity nowhere to be found.",
    "The Geneva Convention doesn't apply to fantasy football, apparently. "
      ++ winning.manager_name ++ " showing no mercy with a " ++ toString pd
      ++ "-point lead.",
    toString pd ++ " points behind. " ++ losing.manager_name
      ++ "'s weekend is ruined, their disappointment is immeasurable." ]

/-- The `point_diff >= 15` pool (lines 301-309). -/
def dominant_comments (winning losing : FplTeam) (pd : Nat) : List String :=
  [ winning.manager_name ++ " is shitting on " ++ losing.manager_name
      ++ " right now. Not even close.",
    losing.manager_name ++ " is getting cooked. Down by " ++ toString pd
      ++ " and it's not looking pretty.",
    winning.manager_name ++ "'s victory lap is already underway. "
      ++ losing.manager_name ++ " is just along for the ride.",
    losing.manager_name ++ " trails by " ++ toString pd
      ++ ". Alexa, play 'Mad World' by Gary Jules.",
    winning.manager_name ++ " putting on a clinic. " ++ losing.manager_name
      ++ " should probably be taking notes.",
    "A " ++ toString pd ++ "-point deficit. " ++ losing.manager_name
      ++ " is in the trenches, fighting for their life (and losing).",
    winning.manager_name ++ " is up " ++ toString pd ++ ". Meanwhile, "
      ++ losing.manager_name ++ " is googling 'how to unsubscribe from pain.'" ]

/-- The close-match pool (lines 312-320). -/
def close_comments (winning losing : FplTeam) (pd : Nat) : List String :=
  [ winning.manager_name ++ " has a slim lead over " ++ losing.manager_name
      ++ ". Barely.",
    "Close one here. " ++ winning.manager_name ++ " is edging "
      ++ losing.manager_name ++ " by " ++ toString pd ++ ".",
    losing.manager_name
      ++ " is within striking distance. Which means they're still losing.",
    winning.manager_name ++ " up by " ++ toString pd ++ ". " ++ losing.manager_name
      ++ " can see the scoreboard, but they can't touch it.",
    "Neck and neck. Well, " ++ winning.manager_name
      ++ "'s neck is slightly ahead. " ++ losing.manager_name
      ++ "'s neck is just... there.",
    "A nail-biter! " ++ winning.manager_name ++ " clings to a " ++ toString pd
      ++ "-point lead while " ++ losing.manager_name ++ " clings to hope.",
    toString pd ++ " points separate these two. Not much, but enough for "
      ++ losing.manager_name ++ " to be mildly annoyed." ]

/-- The comeback epilogue pool (lines 325-335); each string carries the
leading space the source appends with `base += " ..."`. -/
def comeback_comments (losing : FplTeam) (n : Nat) : List String :=
  [ " " ++ losing.manager_name ++ " has " ++ toString n
      ++ " player(s) still to play. Miracles happen, just usually not to them.",
    " Sure, " ++ losing.manager_name ++ " has " ++ toString n
      ++ " player(s) left, but when has that ever worked out?",
    " " ++ losing.manager_name ++ " may be able to claw back with " ++ toString n
      ++ " player(s) to go. Emphasis on 'may.' Heavy emphasis.",
    " With " ++ toString n ++ " player(s) upcoming, " ++ losing.manager_name
      ++ " might mount a comeback. Narrator: they didn't.",
    " " ++ toString n ++ " player(s) yet to play for " ++ losing.manager_name
      ++ ". Time to pray to the xG gods.",
    " " ++ losing.manager_name ++ " still has " ++ toString n
      ++ " player(s). Will they deliver? Survey says: probably not.",
    " The comeback is technically possible with " ++ toString n
      ++ " players remaining. Technically.",
    " " ++ toString n ++ " player(s) left for " ++ losing.manager_name
      ++ ". Hope springs eternal, then dies immediately.",
    " " ++ losing.manager_name ++ "'s got " ++ toString n
      ++ " player(s) in reserve. So you're telling them there's a chance? We're not." ]

/-- The twisting-the-knife epilogue pool (lines 338-347). -/
def twist_comments (winning losing : FplTeam) (n : Nat) : List String :=
  [ " And " ++ winning.manager_name ++ " still has " ++ toString n
      ++ " player(s) to twist the knife further.",
    " Oh, and " ++ winning.manager_name ++ "'s not done. " ++ toString n
      ++ " more player(s) to rub it in.",
    " Plot twist: " ++ winning.manager_name ++ " has " ++ toString n
      ++ " player(s) left to make this even more embarrassing.",
    " " ++ winning.manager_name ++ " has " ++ toString n
      ++ " player(s) left. This could get ugly(er).",
    " To add insult to injury, " ++ winning.manager_name ++ " still has "
      ++ toString n ++ " player(s) to play. Somebody stop the damn match.",
    " " ++ winning.manager_name ++ " isn't done flexing yet - " ++ toString n
      ++ " more player(s) to go.",
    " The beatdown continues: " ++ winning.manager_name ++ " has " ++ toString n
      ++ " player(s) waiting in the wings.",
    " " ++ losing.manager_name ++ " is all tapped out while "
      ++ winning.manager_name ++ " has " ++ toString n
      ++ " player(s) ready to pour it on." ]

/-- The both-sides-remaining epilogue pool (lines 350-354). -/
def both_comments (winning losing : FplTeam) (losing_n winning_n : Nat) :
    List String :=
  [ " Both still have players to play, but " ++ winning.manager_name
      ++ " will probably keep embarrassing " ++ losing.manager_name ++ ".",
    " " ++ losing.manager_name ++ " has " ++ toString losing_n ++ ", "
      ++ winning.manager_name ++ " has " ++ toString winning_n
      ++ ". Math is not on " ++ losing.manager_name ++ "'s side.",
    " Still players to come from both sides. Spoiler: " ++ losing.manager_name
      ++ " still loses." ]

/-- `[(p, live_player_data_map.get(p.id)) for p in winning_xi]` kept where
the lookup succeeded (lines 231-232). -/
def playersWithData (xi : List Player) (m : List (Nat × LivePlayerData)) :
    List (Player × LivePlayerData) :=
  xi.filterMap (fun p => (dictFind m p.id).map (fun d => (p, d)))

/-- `.sort(key=lambda x: x[1].points, reverse=True)` (line 233): stable,
descending in points. -/
def sortByPointsDesc (l : List (Player × LivePlayerData)) :
    List (Player × LivePlayerData) :=
  sortByGe (fun a b => decide (b.2.points ≤ a.2.points)) l

/-- The first goalkeeper/defender with at least 10 points in the
descending-points list (lines 243-247). -/
def defenderHaul (l : List (Player × LivePlayerData)) :
    Option (Player × LivePlayerData) :=
  l.find? (fun pd =>
    (decide (pd.1.element_type = 1) || decide (pd.1.element_type = 2)) &&
      decide ((10 : Int) ≤ pd.2.points))

/-- Whether some live fixture of this club has not started (lines 258-261). -/
def hasUnstartedFixture (club_id : Nat) (fixtures : List Fixture) : Bool :=
  fixtures.any (fun fx =>
    (decide (fx.home_team = club_id) || decide (fx.away_team = club_id)) && !fx.started)

/-- One side's yet-to-play count (the loops at lines 253-263 and 265-274):
a player counts only when a live record exists, its minutes are 0, and
the player's club has an unstarted fixture. -/
def yetToPlayCount (xi : List Player) (m : List (Nat × LivePlayerData))
    (fixtures : List Fixture) : Nat :=
  xi.foldl (fun acc p =>
    match dictFind m p.id with
    | some d =>
      if d.minutes = 0 ∧ hasUnstartedFixture p.club_id fixtures then acc + 1 else acc
    | none => acc) 0

/-- The base line (lines 277-321): the haul branch — which looks the
position name up with a raising subscript `element_types_map[...]` —
takes precedence over the point-differential tiers. -/
def commentaryBase (winning losing : FplTeam)
    (sortedWinning : List (Player × LivePlayerData)) (point_diff : Nat)
    (etMap : List (Nat × ElementType)) (r1 : Nat) : Except String String :=
  match defenderHaul sortedWinning with
  | some pd =>
    match dictFind etMap pd.1.element_type with
    | some et =>
      Except.ok (choice (haul_comments winning losing pd.1 pd.2 et.position_name) r1)
    | none => Except.error ("KeyError: " ++ toString pd.1.element_type)
  | none =>
    if 30 ≤ point_diff then
      Except.ok (choice (blowout_comments winning losing point_diff) r1)
    else if 15 ≤ point_diff then
      Except.ok (choice (dominant_comments winning losing point_diff) r1)
    else
      Except.ok (choice (close_comments winning losing point_diff) r1)

/-- The remaining-fixture epilogue (lines 324-355); `""` when no branch
applies. -/
def epilogueOf (winning losing : FplTeam) (winning_ytp losing_ytp point_diff : Nat)
    (r2 : Nat) : String :=
  if 0 < losing_ytp ∧ point_diff < 30 then
    choice (comeback_comments losing losing_ytp) r2
  else if losing_ytp = 0 ∧ 0 < winning_ytp then
    choice (twist_comments winning losing winning_ytp) r2
  else if 0 < losing_ytp ∧ 0 < winning_ytp then
    choice (both_comments winning losing losing_ytp winning_ytp) r2
  else ""

/-- The non-draw tail of `generate_match_commentary` (lines 230-357),
with the winner/loser already selected. -/
def nonDrawCommentary (winning losing : FplTeam)
    (winning_xi losing_xi : List Player) (m : List (Nat × LivePlayerData))
    (etMap : List (Nat × ElementType)) (fixtures : List Fixture)
    (point_diff : Nat) (r1 r2 : Nat) : Except String String := do
  let sortedWinning := sortByPointsDesc (playersWithData winning_xi m)
  let losing_ytp := yetToPlayCount losing_xi m fixtures
  let winning_ytp := yetToPlayCount winning_xi m fixtures
  let base ← commentaryBase winning losing sortedWinning point_diff etMap r1
  Except.ok (base ++ epilogueOf winning losing winning_ytp losing_ytp point_diff r2)

/-- `generate_match_commentary` (`src/utils.py` lines 199-357). -/
def generate_match_commentary (team1 team2 : FplTeam)
    (team1_points team2_points : Int) (team1_xi team2_xi : List Player)
    (live_player_data_map : List (Nat × LivePlayerData))
    (element_types_map : List (Nat × ElementType)) (live_fixtures : List Fixture)
    (r1 r2 : Nat) : Except String String :=
  let point_diff := (team1_points - team2_points).natAbs
  if team2_points < team1_points then
    nonDrawCommentary team1 team2 team1_xi team2_xi live_player_data_map
      element_types_map live_fixtures point_diff r1 r2
  else if team1_points < team2_points then
    nonDrawCommentary team2 team1 team2_xi team1_xi live_player_data_map
      element_types_map live_fixtures point_diff r1 r2
  else
    Except.ok (choice (draw_comments team1 team2 team1_points team2_points) r1)

/-! ## The two match pages' score derivations (claim C3's call sites). -/

/-- `sorted(team.players[:11], key=lambda p: p.element_type, reverse=True)`
(`src/Home.py` lines 164-165, `src/fpl/pages/1_matches.py` lines 273-274). -/
def sortXiByTypeDesc (ps : List Player) : List Player :=
  sortByGe (fun a b => decide (b.element_type ≤ a.element_type)) ps

def starting_xi (team : FplTeam) : List Player :=
  sortXiByTypeDesc (team.players.take 11)

/-- The live-points sum of a lineup (`src/Home.py` lines 172-173): a player
with no live record contributes 0. -/
def xi_live_points (xi : List Player) (m : List (Nat × LivePlayerData)) : Int :=
  xi.foldl (fun acc p =>
    acc + (match dictFind m p.id with | some d => d.points | none => 0)) 0

/-- The score pair `render_matches_page` (`src/Home.py` lines 157-199)
displays (line 184) and feeds to the commentary generator (line 195) for
one matchup: the live sums over each starting XI, recomputed from the
live player data.  `none` when either roster id is absent from the team
map (the loop does `continue`, lines 161-162). -/
def home_page_scores (matchup : FplMatchup) (team_map : List (Nat × FplTeam))
    (live_map : List (Nat × LivePlayerData)) : Option (Int × Int) :=
  match dictFind team_map matchup.fpl_team_id_1,
        dictFind team_map matchup.fpl_team_id_2 with
  | some t1, some t2 =>
    some (xi_live_points (starting_xi t1) live_map,
          xi_live_points (starting_xi t2) live_map)
  | _, _ => none

/-- The score pair `main` in `src/fpl/pages/1_matches.py` (lines 266-300)
displays (line 285) and feeds to the commentary generator (line 296) for
one matchup: the matchup record's reported points, not a recomputed live
sum. -/
def matches_page_scores (matchup : FplMatchup) (team_map : List (Nat × FplTeam)) :
    Option (Int × Int) :=
  match dictFind team_map matchup.fpl_team_id_1,
        dictFind team_map matchup.fpl_team_id_2 with
  | some _, some _ => some (matchup.team_1_points, matchup.team_2_points)
  | _, _ => none

/-! # Proof layer -/

/-! ## Generic helpers -/

theorem choice_mem (l : List String) (r : Nat) (h : l ≠ []) : choice l r ∈ l := by
  have hlen : 0 < l.length := List.length_pos.mpr h
  have hlt : r % l.length < l.length := Nat.mod_lt _ hlen
  unfold choice
  rw [List.getD_eq_getElem?_getD, List.getElem?_eq_getElem hlt]
  simp only [Option.getD_some]
  exact List.getElem_mem _

theorem except_bind_ok {α β : Type} (a : α) (f : α → Except String β) :
    (Except.ok a >>= f) = f a := rfl

theorem except_bind_error {α β : Type} (e : String) (f : α → Except String β) :
    (Except.error e >>= f : Except String β) = Except.error e := rfl

theorem any_congrOn {α : Type} {p q : α → Bool} :
    ∀ l : List α, (∀ a ∈ l, p a = q a) → l.any p = l.any q := by
  intro l
  induction l with
  | nil => intro _; rfl
  | cons a l ih =>
    intro h
    simp only [List.any_cons, h a (List.mem_cons_self a l),
      ih (fun b hb => h b (List.mem_cons_of_mem a hb))]

/-- All values of an association table satisfy `P`. -/
def AllValues {α : Type} (P : α → Prop) (t : List (Nat × α)) : Prop :=
  ∀ e ∈ t, P e.2

theorem allValues_dictInsert {α : Type} {P : α → Prop} {t : List (Nat × α)}
    {k : Nat} {v : α} (ht : AllValues P t) (hv : P v) :
    AllValues P (dictInsert t k v) := by
  intro e he
  unfold dictInsert at he
  by_cases h : t.any (fun p => p.1 = k)
  · simp only [h, if_pos] at he
    rcases List.mem_map.mp he with ⟨p, hp, hpe⟩
    by_cases hk : p.1 = k
    · simp only [hk, if_pos] at hpe
      rw [← hpe]
      exact hv
    · simp only [hk, if_neg, if_false] at hpe
      rw [← hpe]
      exact ht p hp
  · simp only [h, if_neg, if_false] at he
    rcases List.mem_append.mp he with h1 | h1
    · exact ht e h1
    · rcases List.mem_singleton.mp h1 with rfl
      exact hv

theorem allValues_updateEntry {α : Type} {P : α → Prop} {t t' : List (Nat × α)}
    {k : Nat} {f : α → α} (hf : ∀ a, P a → P (f a)) (ht : AllValues P t)
    (h : updateEntry t k f = Except.ok t') : AllValues P t' := by
  unfold updateEntry at h
  by_cases hk : t.any (fun p => p.1 = k)
  · simp only [hk, if_pos, Except.ok.injEq] at h
    subst h
    intro e he
    rcases List.mem_map.mp he with ⟨p, hp, hpe⟩
    by_cases hpk : p.1 = k
    · simp only [hpk, if_pos] at hpe
      rw [← hpe]
      exact hf _ (ht p hp)
    · simp only [hpk, if_neg, if_false] at hpe
      rw [← hpe]
      exact ht p hp
  · simp only [hk, if_neg, if_false] at h
    exact absurd h (by simp)

theorem except_pure_eq_ok {α : Type} (a : α) :
    (pure a : Except String α) = Except.ok a := rfl

/-- `foldlM` over `Except` keeps an invariant of the state. -/
theorem foldlM_except_inv {β σ : Type}
    {step : σ → β → Except String σ} {P : σ → Prop}
    (hstep : ∀ s b s', P s → step s b = Except.ok s' → P s') :
    ∀ (l : List β) (s s' : σ), P s → l.foldlM step s = Except.ok s' → P s' := by
  intro l
  induction l with
  | nil =>
    intro s s' hs h
    rw [List.foldlM_nil, except_pure_eq_ok, Except.ok.injEq] at h
    rwa [← h]
  | cons a l ih =>
    intro s s' hs h
    rw [List.foldlM_cons] at h
    cases hsa : step s a with
    | error e =>
      rw [hsa, except_bind_error] at h
      exact absurd h (by simp)
    | ok t =>
      rw [hsa, except_bind_ok] at h
      exact ih t s' (hstep s a t hs hsa) h

/-- Key membership (`k in d` for the Python dict). -/
def hasKey {α : Type} (t : List (Nat × α)) (k : Nat) : Bool :=
  t.any (fun p => p.1 = k)

theorem hasKey_dictInsert {α : Type} (t : List (Nat × α)) (k' : Nat) (v : α)
    (k : Nat) : hasKey (dictInsert t k' v) k = (hasKey t k || decide (k' = k)) := by
  unfold hasKey dictInsert
  by_cases h : t.any (fun p => p.1 = k') = true
  · simp only [h, if_true, List.any_map]
    rw [any_congrOn t (p := (fun p : Nat × α => decide (p.1 = k)) ∘
          (fun p : Nat × α => if p.1 = k' then (k', v) else p))
        (q := fun p : Nat × α => decide (p.1 = k)) ?_]
    · by_cases hkk : k' = k
      · subst hkk
        rcases List.any_eq_true.mp h with ⟨p, hp, hpk⟩
        simp only [decide_True, Bool.or_true]
        exact List.any_eq_true.mpr ⟨p, hp, hpk⟩
      · simp [hkk]
    · intro p _
      by_cases hp : p.1 = k'
      · simp [Function.comp, hp]
      · simp [Function.comp, hp]
  · simp only [h, if_false, List.any_append]
    simp [eq_comm]

theorem hasKey_updateEntry {α : Type} {t t' : List (Nat × α)} {k' : Nat}
    {f : α → α} (h : updateEntry t k' f = Except.ok t') (k : Nat) :
    hasKey t' k = hasKey t k := by
  unfold updateEntry at h
  by_cases hk : t.any (fun p => p.1 = k') = true
  · simp only [hk, if_true, Except.ok.injEq] at h
    subst h
    unfold hasKey
    rw [List.any_map]
    refine any_congrOn t ?_
    intro p _
    by_cases hp : p.1 = k'
    · simp [Function.comp, hp]
    · simp [Function.comp, hp]
  · simp only [hk, if_false] at h
    exact absurd h (by simp)

theorem updateEntry_error_of_missing {α : Type} {t : List (Nat × α)} {k : Nat}
    (f : α → α) (h : hasKey t k = false) :
    updateEntry t k f = Except.error ("KeyError: " ++ toString k) := by
  unfold updateEntry
  unfold hasKey at h
  simp [h]

theorem updateEntry_ok_of_hasKey {α : Type} {t : List (Nat × α)} {k : Nat}
    (f : α → α) (h : hasKey t k = true) :
    updateEntry t k f =
      Except.ok (t.map (fun p => if p.1 = k then (p.1, f p.2) else p)) := by
  unfold updateEntry
  unfold hasKey at h
  simp only [h, if_true]

/-! ## Membership and sortedness of the stable insertion sort -/

theorem insertGe_cons_pos {α : Type} {ge : α → α → Bool} {x y : α} {ys : List α}
    (h : ge x y = true) : insertGe ge x (y :: ys) = x :: y :: ys := by
  show (if ge x y = true then x :: y :: ys else y :: insertGe ge x ys) = x :: y :: ys
  rw [if_pos h]

theorem insertGe_cons_neg {α : Type} {ge : α → α → Bool} {x y : α} {ys : List α}
    (h : ge x y = false) : insertGe ge x (y :: ys) = y :: insertGe ge x ys := by
  show (if ge x y = true then x :: y :: ys else y :: insertGe ge x ys)
    = y :: insertGe ge x ys
  rw [if_neg (by simp [h])]

theorem mem_insertGe {α : Type} (ge : α → α → Bool) (x a : α) :
    ∀ l : List α, a ∈ insertGe ge x l ↔ a = x ∨ a ∈ l := by
  intro l
  induction l with
  | nil => simp [insertGe]
  | cons y ys ih =>
    by_cases h : ge x y = true
    · rw [insertGe_cons_pos h]
      simp
    · rw [insertGe_cons_neg (Bool.eq_false_iff.mpr h)]
      simp only [List.mem_cons, ih]
      tauto

theorem mem_sortByGe {α : Type} (ge : α → α → Bool) (a : α) :
    ∀ l : List α, a ∈ sortByGe ge l ↔ a ∈ l := by
  intro l
  induction l with
  | nil => simp [sortByGe]
  | cons x xs ih =>
    unfold sortByGe
    rw [mem_insertGe, ih]
    simp

theorem length_insertGe {α : Type} (ge : α → α → Bool) (x : α) :
    ∀ l : List α, (insertGe ge x l).length = l.length + 1 := by
  intro l
  induction l with
  | nil => simp [insertGe]
  | cons y ys ih =>
    by_cases h : ge x y = true
    · rw [insertGe_cons_pos h]
      simp
    · rw [insertGe_cons_neg (Bool.eq_false_iff.mpr h)]
      simp [ih]

theorem length_sortByGe {α : Type} (ge : α → α → Bool) :
    ∀ l : List α, (sortByGe ge l).length = l.length := by
  intro l
  induction l with
  | nil => rfl
  | cons x xs ih =>
    unfold sortByGe
    rw [length_insertGe, ih, List.length_cons]

/-- Inserting into a pairwise-`ge` list keeps it pairwise-`ge`, when `ge`
is total. -/
theorem chain'_insertGe {α : Type} {ge : α → α → Bool}
    (htot : ∀ a b, ge a b = false → ge b a = true) (x : α) :
    ∀ l : List α, List.Chain' (fun a b => ge a b = true) l →
      List.Chain' (fun a b => ge a b = true) (insertGe ge x l) := by
  intro l
  induction l with
  | nil => intro _; simp [insertGe]
  | cons y ys ih =>
    intro hc
    by_cases h : ge x y = true
    · rw [insertGe_cons_pos h]
      exact List.Chain'.cons h hc
    · have hxy : ge x y = false := Bool.eq_false_iff.mpr h
      have hyx : ge y x = true := htot x y hxy
      rw [insertGe_cons_neg hxy]
      rcases ys with _ | ⟨z, zs⟩
      · exact List.chain'_pair.mpr hyx
      · have hc' := List.chain'_cons.mp hc
        have hrec := ih hc'.2
        by_cases hxz : ge x z = true
        · rw [insertGe_cons_pos hxz] at hrec ⊢
          exact List.Chain'.cons hyx hrec
        · rw [insertGe_cons_neg (Bool.eq_false_iff.mpr hxz)] at hrec ⊢
          exact List.Chain'.cons hc'.1 hrec

theorem chain'_sortByGe {α : Type} {ge : α → α → Bool}
    (htot : ∀ a b, ge a b = false → ge b a = true) :
    ∀ l : List α, List.Chain' (fun a b => ge a b = true) (sortByGe ge l) := by
  intro l
  induction l with
  | nil => simp [sortByGe]
  | cons x xs ih => exact chain'_insertGe htot x _ ih

theorem keyGe_total (a b : Nat × Int × Int) :
    keyGe a b = false → keyGe b a = true := by
  unfold keyGe
  rcases a with ⟨a1, a2, a3⟩
  rcases b with ⟨b1, b2, b3⟩
  intro h
  simp only [Bool.or_eq_false_iff, Bool.and_eq_false_iff,
    decide_eq_false_iff_not, not_lt] at h
  simp only [Bool.or_eq_true, Bool.and_eq_true, decide_eq_true_eq]
  omega

/-! ## Claim C10: the yet-to-play counts ignore players with no live record -/

/-- C10: in the remaining-fixture epilogue of `generate_match_commentary`,
a side's yet-to-play count is exactly the number of its starting-XI
players that HAVE a record in the live performance map with zero
minutes and whose club has an unstarted fixture; a player with no
record at all is never counted, whatever their club's fixtures. -/
theorem c10_yet_to_play_requires_record (xi : List Player)
    (m : List (Nat × LivePlayerData)) (fixtures : List Fixture) :
    yetToPlayCount xi m fixtures =
      (xi.filter (fun p =>
        match dictFind m p.id with
        | some d => decide (d.minutes = 0 ∧ hasUnstartedFixture p.club_id fixtures = true)
        | none => false)).length := by
  unfold yetToPlayCount
  suffices h : ∀ (l : List Player) (acc : Nat),
      (l.foldl (fun acc p =>
        match dictFind m p.id with
        | some d =>
          if d.minutes = 0 ∧ hasUnstartedFixture p.club_id fixtures then acc + 1 else acc
        | none => acc) acc) =
      acc + (l.filter (fun p =>
        match dictFind m p.id with
        | some d => decide (d.minutes = 0 ∧ hasUnstartedFixture p.club_id fixtures = true)
        | none => false)).length by
    simpa using h xi 0
  intro l
  induction l with
  | nil => intro acc; simp
  | cons p l ih =>
    intro acc
    rw [List.foldl_cons, List.filter_cons]
    cases hfind : dictFind m p.id with
    | none =>
      simp only [hfind, Bool.false_eq_true, if_false]
      exact ih acc
    | some d =>
      by_cases hc : d.minutes = 0 ∧ hasUnstartedFixture p.club_id fixtures = true
      · simp only [hfind, if_pos hc, decide_eq_true hc, if_true]
        rw [ih (acc + 1)]
        simp only [List.length_cons]
        omega
      · simp only [hfind, if_neg hc, decide_eq_false hc, Bool.false_eq_true, if_false]
        exact ih acc

/-! ## Claim C9: equal scores always give a draw-pool commentary -/

theorem draw_comments_ne_nil (team1 team2 : FplTeam) (p1 p2 : Int) :
    draw_comments team1 team2 p1 p2 ≠ [] := by
  unfold draw_comments
  exact List.cons_ne_nil _ _

/-- C9: whenever the two scores are equal, `generate_match_commentary`
returns one of the draw pool, whatever the other inputs; and a lineup
whose players all lack a live record sums to 0 points, so two such
lineups produce a 0-0 draw. -/
theorem c9_draw_pool :
    (∀ (team1 team2 : FplTeam) (p1 p2 : Int) (xi1 xi2 : List Player)
        (m : List (Nat × LivePlayerData)) (etMap : List (Nat × ElementType))
        (fxs : List Fixture) (r1 r2 : Nat), p1 = p2 →
      ∃ c ∈ draw_comments team1 team2 p1 p2,
        generate_match_commentary team1 team2 p1 p2 xi1 xi2 m etMap fxs r1 r2 =
          Except.ok c) ∧
    (∀ (xi : List Player) (m : List (Nat × LivePlayerData)),
      (∀ p ∈ xi, dictFind m p.id = none) → xi_live_points xi m = 0) := by
  constructor
  · intro team1 team2 p1 p2 xi1 xi2 m etMap fxs r1 r2 hp
    subst hp
    refine ⟨choice (draw_comments team1 team2 p1 p1) r1,
      choice_mem _ _ (draw_comments_ne_nil _ _ _ _), ?_⟩
    unfold generate_match_commentary
    rw [if_neg (lt_irrefl p1), if_neg (lt_irrefl p1)]
  · intro xi m hnone
    unfold xi_live_points
    suffices h : ∀ (l : List Player) (acc : Int), (∀ p ∈ l, dictFind m p.id = none) →
        (l.foldl (fun acc p =>
          acc + (match dictFind m p.id with | some d => d.points | none => 0)) acc) = acc by
      exact h xi 0 hnone
    intro l
    induction l with
    | nil => intro acc _; rfl
    | cons p l ih =>
      intro acc hn
      rw [List.foldl_cons, hn p (List.mem_cons_self p l)]
      simpa using ih (acc + 0) (fun q hq => hn q (List.mem_cons_of_mem p hq))

/-- Witness for C9 at concrete inputs: two empty-record lineups score
0 each, and the commentary at 0-0 is one of the draw pool. -/
theorem c9_draw_pool_witness :
    (∃ c ∈ draw_comments ⟨10, 100, "Alice", "Alpha FC", []⟩
        ⟨20, 200, "Bob", "Beta FC", []⟩ 0 0,
      generate_match_commentary ⟨10, 100, "Alice", "Alpha FC", []⟩
        ⟨20, 200, "Bob", "Beta FC", []⟩ 0 0
        [⟨7, 3, "Keeper", 1⟩] [⟨8, 4, "Fullback", 2⟩] [] [] [] 5 0 = Except.ok c) ∧
    xi_live_points [⟨7, 3, "Keeper", 1⟩] [] = 0 :=
  ⟨c9_draw_pool.1 ⟨10, 100, "Alice", "Alpha FC", []⟩ ⟨20, 200, "Bob", "Beta FC", []⟩
      0 0 [⟨7, 3, "Keeper", 1⟩] [⟨8, 4, "Fullback", 2⟩] [] [] [] 5 0 rfl,
    c9_draw_pool.2 [⟨7, 3, "Keeper", 1⟩] [] (by intro p hp; rfl)⟩

/-! ## Claim C8: a goalkeeper/defender haul overrides the point tiers -/

theorem mem_playersWithData {xi : List Player} {m : List (Nat × LivePlayerData)}
    {p : Player} {d : LivePlayerData} :
    (p, d) ∈ playersWithData xi m ↔ p ∈ xi ∧ dictFind m p.id = some d := by
  unfold playersWithData
  rw [List.mem_filterMap]
  constructor
  · rintro ⟨q, hq, hfd⟩
    cases hfind : dictFind m q.id with
    | none => rw [hfind] at hfd; exact absurd hfd (by simp)
    | some dq =>
      rw [hfind] at hfd
      simp at hfd
      rcases hfd with ⟨rfl, rfl⟩
      exact ⟨hq, hfind⟩
  · rintro ⟨hp, hfind⟩
    exact ⟨p, hp, by rw [hfind]; rfl⟩

theorem haul_comments_ne_nil (winning losing : FplTeam) (pl : Player)
    (d : LivePlayerData) (position : String) :
    haul_comments winning losing pl d position ≠ [] := by
  unfold haul_comments
  exact List.cons_ne_nil _ _

/-- The haul scan finds a player whenever one of the winning XI has a
live record, a defensive position code and at least 10 points. -/
theorem defenderHaul_isSome {xi : List Player} {m : List (Nat × LivePlayerData)}
    (h : ∃ p ∈ xi, ∃ d : LivePlayerData, dictFind m p.id = some d ∧
        (p.element_type = 1 ∨ p.element_type = 2) ∧ (10 : Int) ≤ d.points) :
    ∃ pd, defenderHaul (sortByPointsDesc (playersWithData xi m)) = some pd := by
  rcases h with ⟨p, hp, d, hfind, hpos, hpts⟩
  unfold defenderHaul
  cases hres : (sortByPointsDesc (playersWithData xi m)).find? (fun pd =>
      (decide (pd.1.element_type = 1) || decide (pd.1.element_type = 2)) &&
        decide ((10 : Int) ≤ pd.2.points)) with
  | some pd => exact ⟨pd, rfl⟩
  | none =>
    exfalso
    have hmem : (p, d) ∈ sortByPointsDesc (playersWithData xi m) := by
      unfold sortByPointsDesc
      rw [mem_sortByGe]
      exact mem_playersWithData.mpr ⟨hp, hfind⟩
    have := List.find?_eq_none.mp hres (p, d) hmem
    apply this
    simp only [Bool.and_eq_true, Bool.or_eq_true, decide_eq_true_eq]
    exact ⟨by rcases hpos with h1 | h1 <;> simp [h1], hpts⟩

theorem commentaryBase_haul {sw : List (Player × LivePlayerData)}
    {pd : Player × LivePlayerData} {etMap : List (Nat × ElementType)}
    {et : ElementType} (winning losing : FplTeam) (diff r1 : Nat)
    (hdh : defenderHaul sw = some pd)
    (het : dictFind etMap pd.1.element_type = some et) :
    commentaryBase winning losing sw diff etMap r1 =
      Except.ok (choice
        (haul_comments winning losing pd.1 pd.2 et.position_name) r1) := by
  unfold commentaryBase
  rw [hdh]
  dsimp only
  rw [het]

theorem commentaryBase_haul_error {sw : List (Player × LivePlayerData)}
    {pd : Player × LivePlayerData} {etMap : List (Nat × ElementType)}
    (winning losing : FplTeam) (diff r1 : Nat)
    (hdh : defenderHaul sw = some pd)
    (het : dictFind etMap pd.1.element_type = none) :
    commentaryBase winning losing sw diff etMap r1 =
      Except.error ("KeyError: " ++ toString pd.1.element_type) := by
  unfold commentaryBase
  rw [hdh]
  dsimp only
  rw [het]

theorem nonDrawCommentary_eq {b : String} (winning losing : FplTeam)
    (winning_xi losing_xi : List Player) (m : List (Nat × LivePlayerData))
    (etMap : List (Nat × ElementType)) (fxs : List Fixture)
    (diff r1 r2 : Nat)
    (hbase : commentaryBase winning losing
      (sortByPointsDesc (playersWithData winning_xi m)) diff etMap r1 =
        Except.ok b) :
    nonDrawCommentary winning losing winning_xi losing_xi m etMap fxs diff r1 r2 =
      Except.ok (b ++ epilogueOf winning losing (yetToPlayCount winning_xi m fxs)
        (yetToPlayCount losing_xi m fxs) diff r2) := by
  unfold nonDrawCommentary
  dsimp only
  rw [hbase, except_bind_ok]

theorem nonDrawCommentary_error {e : String} (winning losing : FplTeam)
    (winning_xi losing_xi : List Player) (m : List (Nat × LivePlayerData))
    (etMap : List (Nat × ElementType)) (fxs : List Fixture)
    (diff r1 r2 : Nat)
    (hbase : commentaryBase winning losing
      (sortByPointsDesc (playersWithData winning_xi m)) diff etMap r1 =
        Except.error e) :
    nonDrawCommentary winning losing winning_xi losing_xi m etMap fxs diff r1 r2 =
      Except.error e := by
  unfold nonDrawCommentary
  dsimp only
  rw [hbase, except_bind_error]

/-- C8: when the scores differ and the winning side's starting XI
contains a goalkeeper or defender (position code 1 or 2) with a live
record of at least 10 points, any string `generate_match_commentary`
successfully returns starts with a member of the haul pool — the haul
branch preempts every point-differential tier. -/
theorem c8_haul_override (team1 team2 : FplTeam) (p1 p2 : Int)
    (xi1 xi2 : List Player) (m : List (Nat × LivePlayerData))
    (etMap : List (Nat × ElementType)) (fxs : List Fixture) (r1 r2 : Nat)
    (s : String) (hne : p1 ≠ p2)
    (hok : generate_match_commentary team1 team2 p1 p2 xi1 xi2 m etMap fxs r1 r2 =
      Except.ok s)
    (hhaul : ∃ p ∈ (if p2 < p1 then xi1 else xi2), ∃ d : LivePlayerData,
      dictFind m p.id = some d ∧ (p.element_type = 1 ∨ p.element_type = 2) ∧
        (10 : Int) ≤ d.points) :
    ∃ pl dd et b tail,
      defenderHaul (sortByPointsDesc
        (playersWithData (if p2 < p1 then xi1 else xi2) m)) = some (pl, dd) ∧
      dictFind etMap pl.element_type = some et ∧
      b ∈ haul_comments (if p2 < p1 then team1 else team2)
        (if p2 < p1 then team2 else team1) pl dd et.position_name ∧
      s = b ++ tail := by
  unfold generate_match_commentary at hok
  by_cases hlt : p2 < p1
  · rw [if_pos hlt] at hok
    simp only [if_pos hlt] at hhaul ⊢
    rcases defenderHaul_isSome hhaul with ⟨pd, hdh⟩
    cases het : dictFind etMap pd.1.element_type with
    | none =>
      rw [nonDrawCommentary_error team1 team2 xi1 xi2 m etMap fxs _ r1 r2
        (commentaryBase_haul_error team1 team2 _ r1 hdh het)] at hok
      exact absurd hok (by simp)
    | some et =>
      rw [nonDrawCommentary_eq team1 team2 xi1 xi2 m etMap fxs _ r1 r2
        (commentaryBase_haul team1 team2 _ r1 hdh het)] at hok
      simp only [Except.ok.injEq] at hok
      exact ⟨pd.1, pd.2, et,
        choice (haul_comments team1 team2 pd.1 pd.2 et.position_name) r1, _,
        hdh, het, choice_mem _ _ (haul_comments_ne_nil _ _ _ _ _), hok.symm⟩
  · have hlt' : p1 < p2 := lt_of_le_of_ne (not_lt.mp hlt) hne
    rw [if_neg hlt, if_pos hlt'] at hok
    simp only [if_neg hlt] at hhaul ⊢
    rcases defenderHaul_isSome hhaul with ⟨pd, hdh⟩
    cases het : dictFind etMap pd.1.element_type with
    | none =>
      rw [nonDrawCommentary_error team2 team1 xi2 xi1 m etMap fxs _ r1 r2
        (commentaryBase_haul_error team2 team1 _ r1 hdh het)] at hok
      exact absurd hok (by simp)
    | some et =>
      rw [nonDrawCommentary_eq team2 team1 xi2 xi1 m etMap fxs _ r1 r2
        (commentaryBase_haul team2 team1 _ r1 hdh het)] at hok
      simp only [Except.ok.injEq] at hok
      exact ⟨pd.1, pd.2, et,
        choice (haul_comments team2 team1 pd.1 pd.2 et.position_name) r1, _,
        hdh, het, choice_mem _ _ (haul_comments_ne_nil _ _ _ _ _), hok.symm⟩

/-- Witness for C8: a defender on 12 points in the winning XI forces a
haul-pool base line at a 35-point differential. -/
theorem c8_haul_override_witness :
    ∃ (pl : Player) (dd : LivePlayerData) (et : ElementType) (b tail : String),
      defenderHaul (sortByPointsDesc (playersWithData
        (if (5 : Int) < 40 then [(⟨7, 3, "Wan-Bissaka", 2⟩ : Player)] else [])
        [(7, (⟨7, 12, 0, 1, 90⟩ : LivePlayerData))])) = some (pl, dd) ∧
      dictFind [(2, (⟨2, "DEF"⟩ : ElementType))] pl.element_type = some et ∧
      b ∈ haul_comments
        (if (5 : Int) < 40 then ⟨10, 100, "Alice", "Alpha FC", []⟩
          else ⟨20, 200, "Bob", "Beta FC", []⟩)
        (if (5 : Int) < 40 then ⟨20, 200, "Bob", "Beta FC", []⟩
          else ⟨10, 100, "Alice", "Alpha FC", []⟩) pl dd et.position_name ∧
      ("Alice is absolutely demolishing Bob, courtesy of 12 points from Wan-Bissaka, a DEF who has no business scoring that many points." : String)
        = b ++ tail := by
  refine c8_haul_override ⟨10, 100, "Alice", "Alpha FC", []⟩
    ⟨20, 200, "Bob", "Beta FC", []⟩ 40 5 [⟨7, 3, "Wan-Bissaka", 2⟩] []
    [(7, ⟨7, 12, 0, 1, 90⟩)] [(2, ⟨2, "DEF"⟩)] [] 0 0 _ (by decide) rfl ?_
  rw [if_pos (by decide : (5 : Int) < 40)]
  exact ⟨⟨7, 3, "Wan-Bissaka", 2⟩, List.mem_singleton_self _,
    ⟨7, 12, 0, 1, 90⟩, rfl, Or.inr rfl, by decide⟩

/-! ## Claim C3: which score pair the two match pages actually use -/

theorem perm_insertGe {α : Type} (ge : α → α → Bool) (x : α) :
    ∀ l : List α, (insertGe ge x l).Perm (x :: l) := by
  intro l
  induction l with
  | nil => exact List.Perm.refl _
  | cons y ys ih =>
    by_cases h : ge x y = true
    · rw [insertGe_cons_pos h]
    · rw [insertGe_cons_neg (Bool.eq_false_iff.mpr h)]
      exact ((ih.cons y).trans (List.Perm.swap x y ys))

theorem perm_sortByGe {α : Type} (ge : α → α → Bool) :
    ∀ l : List α, (sortByGe ge l).Perm l := by
  intro l
  induction l with
  | nil => exact List.Perm.refl _
  | cons x xs ih =>
    exact (perm_insertGe ge x (sortByGe ge xs)).trans (ih.cons x)

/-- Modelled from the spec's words (§4.2 `resolve_matchup`): the sum of
live point totals over the FIRST 11 roster entries, a missing
performance record contributing 0.  (The code sums over the
position-sorted XI; the two agree because the sort permutes.) -/
def spec_xi_points (team : FplTeam) (m : List (Nat × LivePlayerData)) : Int :=
  (team.players.take 11).foldl (fun acc p =>
    acc + (match dictFind m p.id with | some d => d.points | none => 0)) 0

theorem foldl_add_eq_sum (m : List (Nat × LivePlayerData)) :
    ∀ (l : List Player) (acc : Int),
      (l.foldl (fun acc p =>
        acc + (match dictFind m p.id with | some d => d.points | none => 0)) acc) =
      acc + (l.map (fun p =>
        (match dictFind m p.id with | some d => d.points | none => 0))).sum := by
  intro l
  induction l with
  | nil => intro acc; simp
  | cons p l ih =>
    intro acc
    rw [List.foldl_cons, ih, List.map_cons, List.sum_cons]
    ring

theorem xi_live_points_starting_xi (team : FplTeam)
    (m : List (Nat × LivePlayerData)) :
    xi_live_points (starting_xi team) m = spec_xi_points team m := by
  unfold xi_live_points spec_xi_points starting_xi sortXiByTypeDesc
  rw [foldl_add_eq_sum, foldl_add_eq_sum]
  congr 1
  exact ((perm_sortByGe _ _).map _).sum_eq

/-- C3 counterexample: on the matches page
(`src/fpl/pages/1_matches.py`), the scores displayed and fed to the
commentary generator are the matchup record's externally reported
points — here `(5, 7)` — even though the computed starting-XI live sums
are `0` and `0`.  The computed sum is therefore NOT the score used at
that call site. -/
theorem c3_counterexample :
    matches_page_scores (⟨1, 5, 2, 7⟩ : FplMatchup)
      [(1, (⟨1, 101, "Alice", "Alpha FC", []⟩ : FplTeam)),
       (2, (⟨2, 202, "Bob", "Beta FC", []⟩ : FplTeam))] = some (5, 7) ∧
    xi_live_points (starting_xi ⟨1, 101, "Alice", "Alpha FC", []⟩) [] = 0 ∧
    xi_live_points (starting_xi ⟨2, 202, "Bob", "Beta FC", []⟩) [] = 0 ∧
    ((5 : Int), (7 : Int)) ≠ ((0 : Int), (0 : Int)) :=
  ⟨rfl, rfl, rfl, by decide⟩

/-- C3 amended: the Home page (`src/Home.py` `render_matches_page`)
displays and feeds to commentary the recomputed live sums of each
side's first 11 roster entries (a player with no record contributing
0), overriding the reported matchup points; the matches page
(`src/fpl/pages/1_matches.py` `main`) instead displays and feeds the
matchup record's externally reported points. -/
theorem c3_scores_used :
    (∀ (matchup : FplMatchup) (team_map : List (Nat × FplTeam))
        (live_map : List (Nat × LivePlayerData)) (t1 t2 : FplTeam),
      dictFind team_map matchup.fpl_team_id_1 = some t1 →
      dictFind team_map matchup.fpl_team_id_2 = some t2 →
      home_page_scores matchup team_map live_map =
        some (spec_xi_points t1 live_map, spec_xi_points t2 live_map)) ∧
    (∀ (matchup : FplMatchup) (team_map : List (Nat × FplTeam)) (t1 t2 : FplTeam),
      dictFind team_map matchup.fpl_team_id_1 = some t1 →
      dictFind team_map matchup.fpl_team_id_2 = some t2 →
      matches_page_scores matchup team_map =
        some (matchup.team_1_points, matchup.team_2_points)) := by
  constructor
  · intro matchup team_map live_map t1 t2 h1 h2
    unfold home_page_scores
    rw [h1, h2]
    dsimp only
    rw [xi_live_points_starting_xi, xi_live_points_starting_xi]
  · intro matchup team_map t1 t2 h1 h2
    unfold matches_page_scores
    rw [h1, h2]

/-- Witness for C3's amended theorem at a concrete matchup. -/
theorem c3_scores_used_witness :
    home_page_scores (⟨1, 5, 2, 7⟩ : FplMatchup)
      [(1, (⟨1, 101, "Alice", "Alpha FC", []⟩ : FplTeam)),
       (2, (⟨2, 202, "Bob", "Beta FC", []⟩ : FplTeam))] [] =
      some (spec_xi_points ⟨1, 101, "Alice", "Alpha FC", []⟩ [],
            spec_xi_points ⟨2, 202, "Bob", "Beta FC", []⟩ []) ∧
    matches_page_scores (⟨1, 5, 2, 7⟩ : FplMatchup)
      [(1, (⟨1, 101, "Alice", "Alpha FC", []⟩ : FplTeam)),
       (2, (⟨2, 202, "Bob", "Beta FC", []⟩ : FplTeam))] = some (5, 7) :=
  ⟨c3_scores_used.1 ⟨1, 5, 2, 7⟩ _ [] _ _ rfl rfl,
   c3_scores_used.2 ⟨1, 5, 2, 7⟩ _ _ _ rfl rfl⟩

/-! ## Machinery for the table pipeline: closed form of one fixture step -/

/-- The per-entry effect of `updateEntry t k f` on the association list. -/
def entryMap {α : Type} (k0 : Nat) (f : α → α) (p : Nat × α) : Nat × α :=
  if p.1 = k0 then (p.1, f p.2) else p

/-- The per-key effect of `updateEntry` on a single row. -/
def keyApp {α : Type} (k0 : Nat) (f : α → α) (k : Nat) (r : α) : α :=
  if k = k0 then f r else r

theorem entryMap_fst {α : Type} (k0 : Nat) (f : α → α) (p : Nat × α) :
    (entryMap k0 f p).1 = p.1 := by
  unfold entryMap
  by_cases h : p.1 = k0 <;> simp [h]

theorem entryMap_snd {α : Type} (k0 : Nat) (f : α → α) (p : Nat × α) :
    (entryMap k0 f p).2 = keyApp k0 f p.1 p.2 := by
  unfold entryMap keyApp
  by_cases h : p.1 = k0 <;> simp [h]

theorem updateEntry_ok_eq_map {α : Type} {t t' : List (Nat × α)} {k : Nat} {f : α → α}
    (h : updateEntry t k f = Except.ok t') : t' = t.map (entryMap k f) := by
  unfold updateEntry at h
  by_cases hk : t.any (fun p => p.1 = k) = true
  · simp only [hk, if_true, Except.ok.injEq] at h
    rw [← h]
    rfl
  · simp only [hk, if_false] at h
    exact absurd h (by simp)

/-- After four `updateEntry` steps, every row is the original row pushed
through the four per-key applications; an invariant closed under that
composition survives. -/
theorem allValues_four_maps {α : Type} {P : α → Prop} (k1 k2 k3 k4 : Nat)
    (f1 f2 f3 f4 : α → α) (t : List (Nat × α)) (ht : AllValues P t)
    (hcomp : ∀ (k : Nat) (r : α), P r →
      P (keyApp k4 f4 k (keyApp k3 f3 k (keyApp k2 f2 k (keyApp k1 f1 k r))))) :
    AllValues P ((((t.map (entryMap k1 f1)).map (entryMap k2 f2)).map
      (entryMap k3 f3)).map (entryMap k4 f4)) := by
  intro e he
  simp only [List.map_map] at he
  rcases List.mem_map.mp he with ⟨p, hp, rfl⟩
  simp only [Function.comp]
  rw [entryMap_snd, entryMap_fst, entryMap_snd, entryMap_fst, entryMap_snd,
    entryMap_fst, entryMap_snd]
  exact hcomp p.1 p.2 (ht p hp)

/-- The three aggregate invariants of one table row (claim C1). -/
def RowInv (r : Row) : Prop :=
  r.gd = r.gf - r.ga ∧ r.pts = 3 * r.w + r.d ∧ r.p = r.w + r.d + r.l

theorem applyResult_allValues {names : List (Nat × String)}
    {t t' : List (Nat × Row)} {fx : FixtureRec} (ht : AllValues RowInv t)
    (h : applyResult names t fx = Except.ok t') : AllValues RowInv t' := by
  unfold applyResult at h
  by_cases hfin : fx.finished_provisional = true
  · rw [if_pos hfin] at h
    dsimp only at h
    cases h1 : updateEntry t fx.team_h (fun r =>
        { r with p := r.p + 1, gf := r.gf + fx.team_h_score,
                 ga := r.ga + fx.team_a_score,
                 gd := r.gd + (fx.team_h_score - fx.team_a_score) }) with
    | error e => rw [h1, except_bind_error] at h; exact absurd h (by simp)
    | ok t1 =>
      rw [h1, except_bind_ok] at h
      cases h2 : updateEntry t1 fx.team_a (fun r =>
          { r with p := r.p + 1, gf := r.gf + fx.team_a_score,
                   ga := r.ga + fx.team_h_score,
                   gd := r.gd + (fx.team_a_score - fx.team_h_score) }) with
      | error e => rw [h2, except_bind_error] at h; exact absurd h (by simp)
      | ok t2 =>
        rw [h2, except_bind_ok] at h
        by_cases hw : fx.team_h_score > fx.team_a_score
        · rw [if_pos hw] at h
          cases h3 : updateEntry t2 fx.team_h (fun r =>
              { r with w := r.w + 1, pts := r.pts + 3, form := r.form ++ ['W'],
                       formDetails := r.formDetails ++
                         [⟨'W', dictGetD names fx.team_a "Unknown",
                           scoreStr fx.team_h_score fx.team_a_score, fx.event, true⟩] }) with
          | error e => rw [h3, except_bind_error] at h; exact absurd h (by simp)
          | ok t3 =>
            rw [h3, except_bind_ok] at h
            rw [updateEntry_ok_eq_map h, updateEntry_ok_eq_map h3,
              updateEntry_ok_eq_map h2, updateEntry_ok_eq_map h1]
            refine allValues_four_maps _ _ _ _ _ _ _ _ _ ht ?_
            intro k r hr
            rcases hr with ⟨e1, e2, e3⟩
            unfold keyApp
            by_cases ha : k = fx.team_h <;> by_cases hb : k = fx.team_a
            · simp only [RowInv, if_pos ha, if_pos hb]
              refine ⟨by omega, by omega, by omega⟩
            · simp only [RowInv, if_pos ha, if_neg hb]
              refine ⟨by omega, by omega, by omega⟩
            · simp only [RowInv, if_neg ha, if_pos hb]
              refine ⟨by omega, by omega, by omega⟩
            · simp only [RowInv, if_neg ha, if_neg hb]
              exact ⟨e1, e2, e3⟩
        · rw [if_neg hw] at h
          by_cases hl : fx.team_a_score > fx.team_h_score
          · rw [if_pos hl] at h
            cases h3 : updateEntry t2 fx.team_a (fun r =>
                { r with w := r.w + 1, pts := r.pts + 3, form := r.form ++ ['W'],
                         formDetails := r.formDetails ++
                           [⟨'W', dictGetD names fx.team_h "Unknown",
                             scoreStr fx.team_a_score fx.team_h_score, fx.event, false⟩] }) with
            | error e => rw [h3, except_bind_error] at h; exact absurd h (by simp)
            | ok t3 =>
              rw [h3, except_bind_ok] at h
              rw [updateEntry_ok_eq_map h, updateEntry_ok_eq_map h3,
                updateEntry_ok_eq_map h2, updateEntry_ok_eq_map h1]
              refine allValues_four_maps _ _ _ _ _ _ _ _ _ ht ?_
              intro k r hr
              rcases hr with ⟨e1, e2, e3⟩
              unfold keyApp
              by_cases ha : k = fx.team_h <;> by_cases hb : k = fx.team_a
              · simp only [RowInv, if_pos ha, if_pos hb]
                refine ⟨by omega, by omega, by omega⟩
              · simp only [RowInv, if_pos ha, if_neg hb]
                refine ⟨by omega, by omega, by omega⟩
              · simp only [RowInv, if_neg ha, if_pos hb]
                refine ⟨by omega, by omega, by omega⟩
              · simp only [RowInv, if_neg ha, if_neg hb]
                exact ⟨e1, e2, e3⟩
          · rw [if_neg hl] at h
            cases h3 : updateEntry t2 fx.team_h (fun r =>
                { r with d := r.d + 1, pts := r.pts + 1, form := r.form ++ ['D'],
                         formDetails := r.formDetails ++
                           [⟨'D', dictGetD names fx.team_a "Unknown",
                             scoreStr fx.team_h_score fx.team_a_score, fx.event, true⟩] }) with
            | error e => rw [h3, except_bind_error] at h; exact absurd h (by simp)
            | ok t3 =>
              rw [h3, except_bind_ok] at h
              rw [updateEntry_ok_eq_map h, updateEntry_ok_eq_map h3,
                updateEntry_ok_eq_map h2, updateEntry_ok_eq_map h1]
              refine allValues_four_maps _ _ _ _ _ _ _ _ _ ht ?_
              intro k r hr
              rcases hr with ⟨e1, e2, e3⟩
              unfold keyApp
              by_cases ha : k = fx.team_h <;> by_cases hb : k = fx.team_a
              · simp only [RowInv, if_pos ha, if_pos hb]
                refine ⟨by omega, by omega, by omega⟩
              · simp only [RowInv, if_pos ha, if_neg hb]
                refine ⟨by omega, by omega, by omega⟩
              · simp only [RowInv, if_neg ha, if_pos hb]
                refine ⟨by omega, by omega, by omega⟩
              · simp only [RowInv, if_neg ha, if_neg hb]
                exact ⟨e1, e2, e3⟩
  · rw [if_neg hfin] at h
    simp only [Except.ok.injEq] at h
    rwa [← h]

theorem allValues_initTable {P : Row → Prop} (hP : ∀ c : Club, P (initRow c)) :
    ∀ (teams : List Club), AllValues P (initTable teams) := by
  have haux : ∀ (teams : List Club) (t0 : List (Nat × Row)), AllValues P t0 →
      AllValues P (teams.foldl (fun t c => dictInsert t c.id (initRow c)) t0) := by
    intro teams
    induction teams with
    | nil => intro t0 ht; exact ht
    | cons c cs ih =>
      intro t0 ht
      rw [List.foldl_cons]
      exact ih _ (allValues_dictInsert ht (hP c))
  intro teams
  exact haux teams [] (by intro e he; cases he)

/-- Every row of a successful aggregation satisfies the row invariants. -/
theorem leagueAggregate_allValues {teams : List Club} {fixtures : List FixtureRec}
    {agg : List (Nat × Row)} (h : leagueAggregate teams fixtures = Except.ok agg) :
    AllValues RowInv agg := by
  unfold leagueAggregate at h
  refine foldlM_except_inv (fun s fx s' hs hstep => applyResult_allValues hs hstep)
    fixtures _ _ ?_ h
  exact allValues_initTable (fun c => ⟨rfl, rfl, rfl⟩) teams

theorem mem_addPos {x : Nat × Nat × Row} :
    ∀ {i : Nat} {l : List (Nat × Row)}, x ∈ addPos i l → x.2 ∈ l := by
  intro i l
  induction l generalizing i with
  | nil => intro h; cases h
  | cons e es ih =>
    intro h
    unfold addPos at h
    rcases List.mem_cons.mp h with h | h
    · rw [h]; exact List.mem_cons_self _ _
    · exact List.mem_cons_of_mem _ (ih h)

/-- Shape of a successful `calcRanked` run: the aggregation succeeded,
the clubs list is nonempty, and the ranked rows are the sorted
aggregation with positions and previous positions attached. -/
theorem calcRanked_shape {teams : List Club} {fixtures : List FixtureRec}
    {ranked : List RankedRow} (hok : calcRanked teams fixtures = Except.ok ranked) :
    ∃ agg, leagueAggregate teams fixtures = Except.ok agg ∧ teams.isEmpty = false ∧
      ((completedEvents fixtures = [] ∧
        ranked = (addPos 1 (sortTable agg)).map (fun e => ⟨e.1, e.1, e.2.1, e.2.2⟩)) ∨
       (∃ ev evs pagg, completedEvents fixtures = ev :: evs ∧
          prevAggregate teams fixtures (maxEvent (ev :: evs)) = Except.ok pagg ∧
          ranked = (addPos 1 (sortTable agg)).map
            (fun e => ⟨e.1, prevRankOf (sortPrevTable pagg) e.2.1, e.2.1, e.2.2⟩))) := by
  unfold calcRanked at hok
  cases hagg : leagueAggregate teams fixtures with
  | error e => rw [hagg, except_bind_error] at hok; exact absurd hok (by simp)
  | ok agg =>
    rw [hagg, except_bind_ok] at hok
    by_cases hemp : teams.isEmpty = true
    · rw [if_pos hemp] at hok
      exact absurd hok (by simp)
    · rw [if_neg hemp] at hok
      refine ⟨agg, rfl, Bool.eq_false_iff.mpr hemp, ?_⟩
      cases hev : completedEvents fixtures with
      | nil =>
        rw [hev] at hok
        dsimp only at hok
        simp only [Except.ok.injEq] at hok
        exact Or.inl ⟨rfl, hok.symm⟩
      | cons ev evs =>
        rw [hev] at hok
        dsimp only at hok
        cases hpagg : prevAggregate teams fixtures (maxEvent (ev :: evs)) with
        | error e => rw [hpagg, except_bind_error] at hok; exact absurd hok (by simp)
        | ok pagg =>
          rw [hpagg, except_bind_ok] at hok
          simp only [Except.ok.injEq] at hok
          exact Or.inr ⟨ev, evs, pagg, rfl, hpagg, hok.symm⟩

/-- Every ranked row's `Row` payload comes from the successful aggregation. -/
theorem calcRanked_row_from_agg {teams : List Club} {fixtures : List FixtureRec}
    {ranked : List RankedRow} (hok : calcRanked teams fixtures = Except.ok ranked) :
    ∀ rr ∈ ranked, ∃ agg e, leagueAggregate teams fixtures = Except.ok agg ∧
      e ∈ agg ∧ rr.row = e.2 := by
  rcases calcRanked_shape hok with ⟨agg, hagg, _, hcase⟩
  intro rr hrr
  rcases hcase with ⟨_, hr⟩ | ⟨ev, evs, pagg, _, _, hr⟩ <;>
  · rw [hr] at hrr
    rcases List.mem_map.mp hrr with ⟨x, hx, rfl⟩
    have hx2 := mem_addPos hx
    refine ⟨agg, x.2, hagg, ?_, rfl⟩
    unfold sortTable at hx2
    exact (mem_sortByGe _ _ _).mp hx2

/-! ## Claim C1: the row invariants of the returned table -/

/-- C1: in every row of a table `calculate_league_table` returns, goal
difference equals goals-for minus goals-against, points equal three
times wins plus draws, and played equals wins plus draws plus losses. -/
theorem c1_row_invariants (teams : List Club) (fixtures : List FixtureRec)
    (out : List OutRow)
    (hok : calculate_league_table teams fixtures = Except.ok out) :
    ∀ r ∈ out, r.gd = r.gf - r.ga ∧ r.pts = 3 * r.w + r.d ∧
      r.p = r.w + r.d + r.l := by
  unfold calculate_league_table at hok
  cases hcr : calcRanked teams fixtures with
  | error e => rw [hcr] at hok; exact absurd hok (by simp [Except.map])
  | ok ranked =>
    rw [hcr] at hok
    simp only [Except.map, Except.ok.injEq] at hok
    intro r hr
    rw [← hok] at hr
    rcases List.mem_map.mp hr with ⟨rr, hrr, rfl⟩
    rcases calcRanked_row_from_agg hcr rr hrr with ⟨agg, e, hagg, he, hrow⟩
    have hinv := leagueAggregate_allValues hagg e he
    unfold projectOut
    rw [hrow]
    exact hinv

/-- Witness for C1 at the spec's §8 scenario (A 3-1 B, round 1). -/
theorem c1_row_invariants_witness :
    ∃ out, calculate_league_table [⟨1, "A", 11⟩, ⟨2, "B", 22⟩]
        [⟨1, 2, 3, 1, 1, true, true⟩] = Except.ok out ∧
      ∀ r ∈ out, r.gd = r.gf - r.ga ∧ r.pts = 3 * r.w + r.d ∧
        r.p = r.w + r.d + r.l :=
  ⟨_, rfl, c1_row_invariants [⟨1, "A", 11⟩, ⟨2, "B", 22⟩]
    [⟨1, 2, 3, 1, 1, true, true⟩] _ rfl⟩

/-! ## Claim C2: sortedness of the table and rank assignment -/

theorem addPos_length : ∀ (i : Nat) (l : List (Nat × Row)),
    (addPos i l).length = l.length := by
  intro i l
  induction l generalizing i with
  | nil => rfl
  | cons e es ih =>
    unfold addPos
    rw [List.length_cons, List.length_cons, ih]

theorem addPos_map_snd : ∀ (i : Nat) (l : List (Nat × Row)),
    (addPos i l).map Prod.snd = l := by
  intro i l
  induction l generalizing i with
  | nil => rfl
  | cons e es ih =>
    unfold addPos
    rw [List.map_cons, ih]

theorem addPos_get? : ∀ (l : List (Nat × Row)) (i j : Nat),
    (addPos i l).get? j = (l.get? j).map (fun e => (i + j, e)) := by
  intro l
  induction l with
  | nil => intro i j; cases j <;> rfl
  | cons e es ih =>
    intro i j
    cases j with
    | zero => rfl
    | succ j =>
      unfold addPos
      rw [List.get?_cons_succ, List.get?_cons_succ, ih (i + 1) j]
      have harith : i + 1 + j = i + (j + 1) := by omega
      rw [harith]

theorem keyGe_imp {a b : Nat × Int × Int} (h : keyGe a b = true) :
    b.1 ≤ a.1 ∧ (a.1 = b.1 → b.2.1 ≤ a.2.1) ∧
      (a.1 = b.1 → a.2.1 = b.2.1 → b.2.2 ≤ a.2.2) := by
  unfold keyGe at h
  rcases a with ⟨a1, a2, a3⟩
  rcases b with ⟨b1, b2, b3⟩
  simp only [Bool.or_eq_true, Bool.and_eq_true, decide_eq_true_eq] at h
  dsimp only
  refine ⟨by omega, by omega, by omega⟩

theorem sortTable_chain' (l : List (Nat × Row)) :
    List.Chain' (fun a b => keyGe (rowKey a.2) (rowKey b.2) = true) (sortTable l) := by
  unfold sortTable
  exact chain'_sortByGe (fun a b h => keyGe_total _ _ h) l

/-- The adjacency relation claim C2 states: points descending, goal
difference descending on equal points, goals-for descending on equal
points and goal difference. -/
def SortedPair (a b : OutRow) : Prop :=
  b.pts ≤ a.pts ∧ (a.pts = b.pts → b.gd ≤ a.gd) ∧
    (a.pts = b.pts → a.gd = b.gd → b.gf ≤ a.gf)

/-- C2: in every table `calculate_league_table` returns, each adjacent
pair of rows is ordered by points desc, then goal difference desc, then
goals-for desc, and the `Pos` column is `1..N` down the table. -/
theorem c2_sorted_and_ranked (teams : List Club) (fixtures : List FixtureRec)
    (out : List OutRow)
    (hok : calculate_league_table teams fixtures = Except.ok out) :
    List.Chain' SortedPair out ∧
    (∀ (i : Nat) (r : OutRow), out.get? i = some r → r.pos = i + 1) := by
  unfold calculate_league_table at hok
  cases hcr : calcRanked teams fixtures with
  | error e => rw [hcr] at hok; exact absurd hok (by simp [Except.map])
  | ok ranked =>
    rw [hcr] at hok
    simp only [Except.map, Except.ok.injEq] at hok
    rcases calcRanked_shape hcr with ⟨agg, hagg, hne, hcase⟩
    have haux : ∀ (g : Nat × Nat × Row → RankedRow),
        (∀ e, (g e).pos = e.1) → (∀ e, (g e).row = e.2.2) →
        out = ((addPos 1 (sortTable agg)).map g).map projectOut →
        List.Chain' SortedPair out ∧
        (∀ (i : Nat) (r : OutRow), out.get? i = some r → r.pos = i + 1) := by
      intro g hgpos hgrow hout
      constructor
      · rw [hout, List.chain'_map, List.chain'_map]
        have hc := sortTable_chain' agg
        rw [← addPos_map_snd 1 (sortTable agg), List.chain'_map] at hc
        refine hc.imp ?_
        intro a b hab
        have hk := keyGe_imp hab
        unfold rowKey at hk
        dsimp only at hk
        unfold SortedPair projectOut
        rw [hgrow a, hgrow b]
        exact hk
      · intro i r hr
        rw [hout, List.get?_map, List.get?_map, addPos_get? _ 1 i] at hr
        cases hsi : (sortTable agg).get? i with
        | none => rw [hsi] at hr; exact absurd hr (by simp)
        | some e =>
          rw [hsi] at hr
          simp only [Option.map_some', Option.some.injEq] at hr
          rw [← hr]
          unfold projectOut
          dsimp only
          rw [hgpos]
          omega
    rcases hcase with ⟨_, hr⟩ | ⟨ev, evs, pagg, _, _, hr⟩
    · exact haux _ (fun e => rfl) (fun e => rfl) (by rw [← hok, hr])
    · exact haux _ (fun e => rfl) (fun e => rfl) (by rw [← hok, hr])

/-- Witness for C2 at the spec's §8 scenario (A 3-1 B, round 1). -/
theorem c2_sorted_and_ranked_witness :
    ∃ out, calculate_league_table [⟨1, "A", 11⟩, ⟨2, "B", 22⟩]
        [⟨1, 2, 3, 1, 1, true, true⟩] = Except.ok out ∧
      List.Chain' SortedPair out ∧
      (∀ (i : Nat) (r : OutRow), out.get? i = some r → r.pos = i + 1) :=
  ⟨_, rfl, c2_sorted_and_ranked [⟨1, "A", 11⟩, ⟨2, "B", 22⟩]
    [⟨1, 2, 3, 1, 1, true, true⟩] _ rfl⟩

/-! ## Claim C4: a fixture naming an unknown club id is a hard error -/

theorem hasKey_map_entryMap {α : Type} (k0 : Nat) (f : α → α)
    (t : List (Nat × α)) (k : Nat) :
    hasKey (t.map (entryMap k0 f)) k = hasKey t k := by
  unfold hasKey
  rw [List.any_map]
  refine any_congrOn t ?_
  intro p _
  simp only [Function.comp_apply]
  rw [entryMap_fst]

/-- Restated `updateEntry` success with the `entryMap` closed form. -/
theorem updateEntry_ok_entryMap {α : Type} {t : List (Nat × α)} {k : Nat}
    (f : α → α) (h : hasKey t k = true) :
    updateEntry t k f = Except.ok (t.map (entryMap k f)) := by
  unfold updateEntry entryMap
  unfold hasKey at h
  simp only [h, if_true]

/-- One finished fixture either raises a `KeyError` on the first missing
club id (home first, as in the source's statement order) or succeeds,
and success never changes the key set. -/
theorem applyResult_cases (names : List (Nat × String)) (t : List (Nat × Row))
    (fx : FixtureRec) (hfin : fx.finished_provisional = true) :
    (hasKey t fx.team_h = false ∧
      applyResult names t fx = Except.error ("KeyError: " ++ toString fx.team_h)) ∨
    (hasKey t fx.team_h = true ∧ hasKey t fx.team_a = false ∧
      applyResult names t fx = Except.error ("KeyError: " ++ toString fx.team_a)) ∨
    (hasKey t fx.team_h = true ∧ hasKey t fx.team_a = true ∧
      ∃ t', applyResult names t fx = Except.ok t' ∧
        ∀ k, hasKey t' k = hasKey t k) := by
  unfold applyResult
  rw [if_pos hfin]
  dsimp only
  by_cases hh : hasKey t fx.team_h = true
  · by_cases hha : hasKey t fx.team_a = true
    · refine Or.inr (Or.inr ⟨hh, hha, ?_⟩)
      rw [updateEntry_ok_entryMap _ hh, except_bind_ok]
      rw [updateEntry_ok_entryMap _ (by rw [hasKey_map_entryMap]; exact hha),
        except_bind_ok]
      by_cases hw : fx.team_h_score > fx.team_a_score
      · rw [if_pos hw]
        rw [updateEntry_ok_entryMap _
          (by rw [hasKey_map_entryMap, hasKey_map_entryMap]; exact hh), except_bind_ok]
        refine ⟨_, updateEntry_ok_entryMap _
          (by rw [hasKey_map_entryMap, hasKey_map_entryMap, hasKey_map_entryMap]
              exact hha), ?_⟩
        intro k
        rw [hasKey_map_entryMap, hasKey_map_entryMap, hasKey_map_entryMap,
          hasKey_map_entryMap]
      · rw [if_neg hw]
        by_cases hl : fx.team_a_score > fx.team_h_score
        · rw [if_pos hl]
          rw [updateEntry_ok_entryMap _
            (by rw [hasKey_map_entryMap, hasKey_map_entryMap]; exact hha), except_bind_ok]
          refine ⟨_, updateEntry_ok_entryMap _
            (by rw [hasKey_map_entryMap, hasKey_map_entryMap, hasKey_map_entryMap]
                exact hh), ?_⟩
          intro k
          rw [hasKey_map_entryMap, hasKey_map_entryMap, hasKey_map_entryMap,
            hasKey_map_entryMap]
        · rw [if_neg hl]
          rw [updateEntry_ok_entryMap _
            (by rw [hasKey_map_entryMap, hasKey_map_entryMap]; exact hh), except_bind_ok]
          refine ⟨_, updateEntry_ok_entryMap _
            (by rw [hasKey_map_entryMap, hasKey_map_entryMap, hasKey_map_entryMap]
                exact hha), ?_⟩
          intro k
          rw [hasKey_map_entryMap, hasKey_map_entryMap, hasKey_map_entryMap,
            hasKey_map_entryMap]
    · refine Or.inr (Or.inl ⟨hh, Bool.eq_false_iff.mpr hha, ?_⟩)
      rw [updateEntry_ok_entryMap _ hh, except_bind_ok]
      rw [updateEntry_error_of_missing _
        (by rw [hasKey_map_entryMap]; exact Bool.eq_false_iff.mpr hha), except_bind_error]
  · refine Or.inl ⟨Bool.eq_false_iff.mpr hh, ?_⟩
    rw [updateEntry_error_of_missing _ (Bool.eq_false_iff.mpr hh), except_bind_error]

theorem applyResult_ok_hasKey {names : List (Nat × String)}
    {t t' : List (Nat × Row)} {fx : FixtureRec}
    (h : applyResult names t fx = Except.ok t') :
    ∀ k, hasKey t' k = hasKey t k := by
  by_cases hfin : fx.finished_provisional = true
  · rcases applyResult_cases names t fx hfin with
      ⟨_, he⟩ | ⟨_, _, he⟩ | ⟨_, _, t'', hok, hk⟩
    · rw [he] at h; exact absurd h (by simp)
    · rw [he] at h; exact absurd h (by simp)
    · rw [hok] at h
      simp only [Except.ok.injEq] at h
      rw [← h]
      exact hk
  · unfold applyResult at h
    rw [if_neg hfin] at h
    simp only [Except.ok.injEq] at h
    rw [← h]
    intro k
    rfl

/-- If any finished fixture of the list names a key absent from the
table, the fixtures fold raises. -/
theorem foldlM_applyResult_error (names : List (Nat × String)) :
    ∀ (l : List FixtureRec) (t : List (Nat × Row)),
      (∃ fx ∈ l, fx.finished_provisional = true ∧
        (hasKey t fx.team_h = false ∨ hasKey t fx.team_a = false)) →
      ∃ e, l.foldlM (applyResult names) t = Except.error e := by
  intro l
  induction l with
  | nil => rintro t ⟨fx, hfx, _⟩; cases hfx
  | cons a l ih =>
    rintro t ⟨fx, hfx, hfin, hmiss⟩
    rw [List.foldlM_cons]
    cases ha : applyResult names t a with
    | error e => rw [except_bind_error]; exact ⟨e, rfl⟩
    | ok t1 =>
      rw [except_bind_ok]
      rcases List.mem_cons.mp hfx with rfl | hfx'
      · exfalso
        rcases applyResult_cases names t fx hfin with
          ⟨_, he⟩ | ⟨_, _, he⟩ | ⟨h1, h2, t'', hok, _⟩
        · rw [he] at ha; simp at ha
        · rw [he] at ha; simp at ha
        · rcases hmiss with hm | hm
          · rw [h1] at hm; exact absurd hm (by simp)
          · rw [h2] at hm; exact absurd hm (by simp)
      · have hpres := applyResult_ok_hasKey ha
        refine ih t1 ⟨fx, hfx', hfin, ?_⟩
        rcases hmiss with hm | hm
        · exact Or.inl (by rw [hpres]; exact hm)
        · exact Or.inr (by rw [hpres]; exact hm)

/-- If every finished fixture's club ids are present, the fixtures fold
succeeds and keeps the key set. -/
theorem foldlM_applyResult_ok (names : List (Nat × String)) :
    ∀ (l : List FixtureRec) (t : List (Nat × Row)),
      (∀ fx ∈ l, fx.finished_provisional = true →
        hasKey t fx.team_h = true ∧ hasKey t fx.team_a = true) →
      ∃ t', l.foldlM (applyResult names) t = Except.ok t' ∧
        ∀ k, hasKey t' k = hasKey t k := by
  intro l
  induction l with
  | nil =>
    intro t _
    exact ⟨t, by rw [List.foldlM_nil, except_pure_eq_ok], fun k => rfl⟩
  | cons a l ih =>
    intro t hkeys
    rw [List.foldlM_cons]
    by_cases hfin : a.finished_provisional = true
    · obtain ⟨hh, hha⟩ := hkeys a (List.mem_cons_self a l) hfin
      rcases applyResult_cases names t a hfin with
        ⟨h1, _⟩ | ⟨_, h2, _⟩ | ⟨_, _, t1, hok, hk⟩
      · rw [hh] at h1; exact absurd h1 (by simp)
      · rw [hha] at h2; exact absurd h2 (by simp)
      · rw [hok, except_bind_ok]
        obtain ⟨t', hfold, hk'⟩ := ih t1 (by
          intro fx hfx hf
          obtain ⟨u1, u2⟩ := hkeys fx (List.mem_cons_of_mem a hfx) hf
          exact ⟨by rw [hk]; exact u1, by rw [hk]; exact u2⟩)
        exact ⟨t', hfold, fun k => (hk' k).trans (hk k)⟩
    · have hok : applyResult names t a = Except.ok t := by
        unfold applyResult
        rw [if_neg hfin]
      rw [hok, except_bind_ok]
      exact ih t (fun fx hfx hf => hkeys fx (List.mem_cons_of_mem a hfx) hf)

theorem hasKey_foldl_dictInsert {α : Type} (f : Club → α) :
    ∀ (teams : List Club) (t0 : List (Nat × α)) (k : Nat),
      hasKey (teams.foldl (fun t c => dictInsert t c.id (f c)) t0) k =
        (hasKey t0 k || teams.any (fun c => c.id = k)) := by
  intro teams
  induction teams with
  | nil => intro t0 k; simp
  | cons c cs ih =>
    intro t0 k
    rw [List.foldl_cons, ih, hasKey_dictInsert, List.any_cons, Bool.or_assoc]

theorem hasKey_initTable (teams : List Club) (k : Nat) :
    hasKey (initTable teams) k = teams.any (fun c => c.id = k) := by
  unfold initTable
  rw [hasKey_foldl_dictInsert initRow teams [] k]
  rfl

/-- C4: if some finished fixture references a home or away club id that
is absent from the clubs list, `calculate_league_table` propagates a
hard `KeyError`; it never returns a table. -/
theorem c4_missing_club_errors (teams : List Club) (fixtures : List FixtureRec)
    (hfx : ∃ fx ∈ fixtures, fx.finished_provisional = true ∧
      (fx.team_h ∉ teams.map Club.id ∨ fx.team_a ∉ teams.map Club.id)) :
    ∃ e, calculate_league_table teams fixtures = Except.error e := by
  have hconv : ∀ k, k ∉ teams.map Club.id → hasKey (initTable teams) k = false := by
    intro k hk
    rw [hasKey_initTable]
    refine Bool.eq_false_iff.mpr (fun hany => hk ?_)
    rcases List.any_eq_true.mp hany with ⟨c, hc, hck⟩
    simp only [decide_eq_true_eq] at hck
    exact List.mem_map.mpr ⟨c, hc, hck⟩
  have hmiss : ∃ fx ∈ fixtures, fx.finished_provisional = true ∧
      (hasKey (initTable teams) fx.team_h = false ∨
       hasKey (initTable teams) fx.team_a = false) := by
    rcases hfx with ⟨fx, hfx, hfin, hm⟩
    refine ⟨fx, hfx, hfin, ?_⟩
    rcases hm with hm | hm
    · exact Or.inl (hconv _ hm)
    · exact Or.inr (hconv _ hm)
  obtain ⟨e, he⟩ :=
    foldlM_applyResult_error (teamNames teams) fixtures (initTable teams) hmiss
  refine ⟨e, ?_⟩
  unfold calculate_league_table calcRanked leagueAggregate
  rw [he, except_bind_error]
  rfl

/-- Witness for C4: one finished fixture whose away id 2 is not among
the clubs (only club 1 exists). -/
theorem c4_missing_club_errors_witness :
    ∃ e, calculate_league_table [⟨1, "A", 11⟩] [⟨1, 2, 3, 1, 1, true, true⟩] =
      Except.error e :=
  c4_missing_club_errors [⟨1, "A", 11⟩] [⟨1, 2, 3, 1, 1, true, true⟩]
    ⟨⟨1, 2, 3, 1, 1, true, true⟩, List.mem_singleton_self _, rfl,
      Or.inr (by decide)⟩

/-! ## Claim C7: only provisionally finished fixtures matter -/

theorem foldlM_applyResult_filter (names : List (Nat × String)) :
    ∀ (l : List FixtureRec) (t : List (Nat × Row)),
      l.foldlM (applyResult names) t =
        (l.filter (fun fx => fx.finished_provisional)).foldlM (applyResult names) t := by
  intro l
  induction l with
  | nil => intro t; rfl
  | cons a l ih =>
    intro t
    rw [List.filter_cons]
    by_cases hfin : a.finished_provisional = true
    · rw [if_pos (by simp [hfin])]
      rw [List.foldlM_cons, List.foldlM_cons]
      cases ha : applyResult names t a with
      | error e => rw [except_bind_error, except_bind_error]
      | ok t1 => rw [except_bind_ok, except_bind_ok]; exact ih t1
    · rw [if_neg (by simp [Bool.eq_false_iff.mpr hfin])]
      rw [List.foldlM_cons]
      have hskip : applyResult names t a = Except.ok t := by
        unfold applyResult
        rw [if_neg hfin]
      rw [hskip, except_bind_ok]
      exact ih t

theorem foldlM_applyPrevResult_filter (latest : Nat) :
    ∀ (l : List FixtureRec) (t : List (Nat × PrevEntry)),
      l.foldlM (applyPrevResult latest) t =
        (l.filter (fun fx => fx.finished_provisional)).foldlM
          (applyPrevResult latest) t := by
  intro l
  induction l with
  | nil => intro t; rfl
  | cons a l ih =>
    intro t
    rw [List.filter_cons]
    by_cases hfin : a.finished_provisional = true
    · rw [if_pos (by simp [hfin])]
      rw [List.foldlM_cons, List.foldlM_cons]
      cases ha : applyPrevResult latest t a with
      | error e => rw [except_bind_error, except_bind_error]
      | ok t1 => rw [except_bind_ok, except_bind_ok]; exact ih t1
    · rw [if_neg (by simp [Bool.eq_false_iff.mpr hfin])]
      rw [List.foldlM_cons]
      have hskip : applyPrevResult latest t a = Except.ok t := by
        unfold applyPrevResult
        rw [if_neg (by simp [Bool.eq_false_iff.mpr hfin])]
      rw [hskip, except_bind_ok]
      exact ih t

/-- C7: two fixture lists with the same provisionally finished fixtures
produce the same table — adding or removing unfinished fixtures changes
nothing (stats, form, positions, previous positions, or errors). -/
theorem c7_unfinished_ignored (teams : List Club)
    (fixtures1 fixtures2 : List FixtureRec)
    (hfil : fixtures1.filter (fun fx => fx.finished_provisional) =
            fixtures2.filter (fun fx => fx.finished_provisional)) :
    calculate_league_table teams fixtures1 =
      calculate_league_table teams fixtures2 := by
  have h1 : leagueAggregate teams fixtures1 = leagueAggregate teams fixtures2 := by
    unfold leagueAggregate
    rw [foldlM_applyResult_filter, hfil, ← foldlM_applyResult_filter]
  have h2 : completedEvents fixtures1 = completedEvents fixtures2 := by
    unfold completedEvents
    rw [hfil]
  have h3 : ∀ latest, prevAggregate teams fixtures1 latest =
      prevAggregate teams fixtures2 latest := by
    intro latest
    unfold prevAggregate
    rw [foldlM_applyPrevResult_filter, hfil, ← foldlM_applyPrevResult_filter]
  unfold calculate_league_table calcRanked
  rw [h1, h2]
  simp only [h3]

/-- Witness for C7: appending an unfinished fixture (scores present but
`finished_provisional = false`) leaves the table unchanged. -/
theorem c7_unfinished_ignored_witness :
    calculate_league_table [⟨1, "A", 11⟩, ⟨2, "B", 22⟩]
      [⟨1, 2, 3, 1, 1, true, true⟩, ⟨2, 1, 2, 2, 2, true, false⟩] =
    calculate_league_table [⟨1, "A", 11⟩, ⟨2, "B", 22⟩]
      [⟨1, 2, 3, 1, 1, true, true⟩] :=
  c7_unfinished_ignored [⟨1, "A", 11⟩, ⟨2, "B", 22⟩]
    [⟨1, 2, 3, 1, 1, true, true⟩, ⟨2, 1, 2, 2, 2, true, false⟩]
    [⟨1, 2, 3, 1, 1, true, true⟩] rfl

/-! ## Claim C5: empty inputs -/

/-- C5 counterexample: with an empty clubs list the builder does NOT
return an empty table — `pd.DataFrame({}.values())` has no columns, so
line 135's `sort_values(by=['Pts','GD','GF'])` raises `KeyError`
before anything is returned (the fixture loop, over an empty dict,
would raise even earlier if a finished fixture were present). -/
theorem c5_counterexample :
    calculate_league_table ([] : List Club) [] = Except.error "KeyError: Pts" := rfl

theorem dictInsert_length_fresh {α : Type} {t : List (Nat × α)} {k : Nat} {v : α}
    (h : hasKey t k = false) : (dictInsert t k v).length = t.length + 1 := by
  unfold dictInsert
  unfold hasKey at h
  simp [h]

theorem initTable_length_nodup :
    ∀ (teams : List Club) (t0 : List (Nat × Row)),
      (∀ c ∈ teams, hasKey t0 c.id = false) → (teams.map Club.id).Nodup →
      (teams.foldl (fun t c => dictInsert t c.id (initRow c)) t0).length =
        t0.length + teams.length := by
  intro teams
  induction teams with
  | nil => intro t0 _ _; simp
  | cons c cs ih =>
    intro t0 hfresh hnod
    rw [List.foldl_cons]
    rw [List.map_cons, List.nodup_cons] at hnod
    have hstep : ∀ c' ∈ cs, hasKey (dictInsert t0 c.id (initRow c)) c'.id = false := by
      intro c' hc'
      rw [hasKey_dictInsert, hfresh c' (List.mem_cons_of_mem c hc')]
      have hne : c.id ≠ c'.id := fun he => hnod.1 (he ▸ List.mem_map.mpr ⟨c', hc', rfl⟩)
      simp [hne]
    rw [ih (dictInsert t0 c.id (initRow c)) hstep hnod.2,
      dictInsert_length_fresh (hfresh c (List.mem_cons_self c cs))]
    simp only [List.length_cons]
    omega

/-- C5 amended: an empty clubs list raises (`c5_counterexample`), but a
nonempty clubs list with no provisionally finished fixtures — in
particular an empty fixtures list — is not an error: the table has one
row per club (given distinct club ids), every row is all-zero with an
empty form display, and `PrevPos` equals the current rank everywhere. -/
theorem c5_no_finished_fixtures (teams : List Club) (fixtures : List FixtureRec)
    (hne : teams ≠ [])
    (hunf : ∀ fx ∈ fixtures, fx.finished_provisional = false) :
    ∃ out, calculate_league_table teams fixtures = Except.ok out ∧
      ((teams.map Club.id).Nodup → out.length = teams.length) ∧
      ∀ r ∈ out, r.p = 0 ∧ r.w = 0 ∧ r.d = 0 ∧ r.l = 0 ∧ r.gf = 0 ∧ r.ga = 0 ∧
        r.gd = 0 ∧ r.pts = 0 ∧ r.form = "" ∧ r.prevPos = r.pos := by
  have hfil : fixtures.filter (fun fx => fx.finished_provisional) = [] := by
    rw [List.filter_eq_nil]
    intro fx hfx
    simp [hunf fx hfx]
  have hagg : leagueAggregate teams fixtures = Except.ok (initTable teams) := by
    unfold leagueAggregate
    rw [foldlM_applyResult_filter, hfil, List.foldlM_nil, except_pure_eq_ok]
  have hev : completedEvents fixtures = [] := by
    unfold completedEvents
    rw [hfil]
    rfl
  have hempty : teams.isEmpty = false := by
    cases teams with
    | nil => exact absurd rfl hne
    | cons c cs => rfl
  have hcr : calcRanked teams fixtures = Except.ok
      ((addPos 1 (sortTable (initTable teams))).map
        (fun e => ⟨e.1, e.1, e.2.1, e.2.2⟩)) := by
    unfold calcRanked
    rw [hagg, except_bind_ok, if_neg (by simp [hempty]), hev]
  refine ⟨_, by unfold calculate_league_table; rw [hcr]; rfl, ?_, ?_⟩
  · intro hnod
    rw [List.length_map, List.length_map, addPos_length]
    unfold sortTable
    rw [length_sortByGe]
    unfold initTable
    rw [initTable_length_nodup teams [] (fun c _ => rfl) hnod]
    simp
  · intro r hr
    rcases List.mem_map.mp hr with ⟨rr, hrr, rfl⟩
    rcases List.mem_map.mp hrr with ⟨x, hx, rfl⟩
    have hx2 : x.2 ∈ sortTable (initTable teams) := mem_addPos hx
    unfold sortTable at hx2
    have hx3 : x.2 ∈ initTable teams := (mem_sortByGe _ _ _).mp hx2
    have hzero : AllValues (fun row => row.p = 0 ∧ row.w = 0 ∧ row.d = 0 ∧
        row.l = 0 ∧ row.gf = 0 ∧ row.ga = 0 ∧ row.gd = 0 ∧ row.pts = 0 ∧
        row.form = ([] : List Char)) (initTable teams) :=
      allValues_initTable (fun c => ⟨rfl, rfl, rfl, rfl, rfl, rfl, rfl, rfl, rfl⟩) teams
    obtain ⟨z1, z2, z3, z4, z5, z6, z7, z8, z9⟩ := hzero x.2 hx3
    unfold projectOut
    refine ⟨z1, z2, z3, z4, z5, z6, z7, z8, ?_, rfl⟩
    dsimp only
    rw [z9]
    rfl

/-- Witness for C5's amended theorem: two clubs, one unfinished fixture. -/
theorem c5_no_finished_fixtures_witness :
    ∃ out, calculate_league_table [⟨1, "A", 11⟩, ⟨2, "B", 22⟩]
        [⟨1, 2, 0, 0, 1, false, false⟩] = Except.ok out ∧
      (([1, 2] : List Nat).Nodup → out.length = 2) ∧
      ∀ r ∈ out, r.p = 0 ∧ r.w = 0 ∧ r.d = 0 ∧ r.l = 0 ∧ r.gf = 0 ∧ r.ga = 0 ∧
        r.gd = 0 ∧ r.pts = 0 ∧ r.form = "" ∧ r.prevPos = r.pos := by
  have h := c5_no_finished_fixtures [⟨1, "A", 11⟩, ⟨2, "B", 22⟩]
    [⟨1, 2, 0, 0, 1, false, false⟩] (by simp)
    (by intro fx hfx; rcases List.mem_singleton.mp hfx with rfl; rfl)
  exact h

/-! ## Claim C6: `PrevPos` equals the rank of a re-run on earlier rounds

The source's previous-position pass (lines 142-185) aggregates only
`Pts`/`GD`/`GF`.  The claim says it matches re-running the FULL
aggregation and sort on the fixtures of strictly earlier rounds; the
spec-side re-run is `specPrevRank` below, and the proof relates the two
through the projection `projPrevRow`. -/

def projPrevRow (r : Row) : PrevEntry := ⟨r.pts, r.gd, r.gf⟩

def projPrev (e : Nat × Row) : Nat × PrevEntry := (e.1, projPrevRow e.2)

/-- The finished fixtures of rounds strictly before the latest finished
round (the spec's restriction for the previous table). -/
def priorFixtures (fixtures : List FixtureRec) : List FixtureRec :=
  fixtures.filter (fun fx =>
    fx.finished_provisional && decide (fx.event < maxEvent (completedEvents fixtures)))

/-- Modelled from the spec (§4.4 rank movement): re-run the same
aggregation (`leagueAggregate`) and the same sort (`sortTable`) over
only the prior fixtures, and read off the club's 1-based rank there. -/
def specPrevRank (teams : List Club) (fixtures : List FixtureRec) (id : Nat) : Nat :=
  match leagueAggregate teams (priorFixtures fixtures) with
  | Except.ok agg => (sortTable agg).findIdx (fun e => e.1 = id) + 1
  | Except.error _ => 0

theorem entryMap_pair {α : Type} (k0 : Nat) (f : α → α) (k : Nat) (r : α) :
    entryMap k0 f (k, r) = (k, keyApp k0 f k r) := by
  unfold entryMap keyApp
  by_cases h : k = k0 <;> simp [h]

theorem any_map_general {α β : Type} (f : α → β) (p : β → Bool) :
    ∀ l : List α, (l.map f).any p = l.any (fun a => p (f a)) := by
  intro l
  induction l with
  | nil => rfl
  | cons a l ih =>
    rw [List.map_cons, List.any_cons, List.any_cons, ih]

theorem dictInsert_map_comm {α β : Type} (g : α → β) :
    ∀ (t : List (Nat × α)) (k : Nat) (v : α),
      (dictInsert t k v).map (fun e => (e.1, g e.2)) =
        dictInsert (t.map (fun e => (e.1, g e.2))) k (g v) := by
  intro t k v
  unfold dictInsert
  have hany : (t.map (fun e => (e.1, g e.2))).any (fun p => p.1 = k) =
      t.any (fun p => p.1 = k) := by
    rw [any_map_general]
  by_cases h : t.any (fun p => p.1 = k) = true
  · have h2 : ((t.map (fun e => (e.1, g e.2))).any (fun p => p.1 = k)) = true := by
      rw [hany]; exact h
    rw [if_pos h, if_pos h2, List.map_map, List.map_map]
    refine List.map_congr_left ?_
    intro p _
    simp only [Function.comp_apply]
    by_cases hp : p.1 = k
    · simp [hp]
    · simp [hp]
  · have h2 : ((t.map (fun e => (e.1, g e.2))).any (fun p => p.1 = k)) = false := by
      rw [hany]; exact Bool.eq_false_iff.mpr h
    rw [if_neg h, if_neg (by simp [h2]), List.map_append]
    rfl

/-- `prev_table`'s initialisation is the projection of the main one. -/
theorem initPrevTable_eq_map (teams : List Club) :
    initPrevTable teams = (initTable teams).map projPrev := by
  unfold initPrevTable initTable
  have haux : ∀ (l : List Club) (t0 : List (Nat × Row)),
      (l.foldl (fun t c => dictInsert t c.id ⟨0, 0, 0⟩) (t0.map projPrev)) =
        (l.foldl (fun t c => dictInsert t c.id (initRow c)) t0).map projPrev := by
    intro l
    induction l with
    | nil => intro t0; rfl
    | cons c cs ih =>
      intro t0
      rw [List.foldl_cons, List.foldl_cons, ← ih (dictInsert t0 c.id (initRow c))]
      have : (dictInsert t0 c.id (initRow c)).map projPrev =
          dictInsert (t0.map projPrev) c.id ⟨0, 0, 0⟩ := by
        have hcomm := dictInsert_map_comm projPrevRow t0 c.id (initRow c)
        exact hcomm
      rw [this]
  have h0 := haux teams []
  simpa using h0

/-- Folding over a filtered list is folding with a guard. -/
theorem foldlM_filter_guard {σ : Type} (step : σ → FixtureRec → Except String σ)
    (g : FixtureRec → Bool) :
    ∀ (l : List FixtureRec) (t : σ),
      (l.filter g).foldlM step t =
        l.foldlM (fun t fx => if g fx then step t fx else Except.ok t) t := by
  intro l
  induction l with
  | nil => intro t; rfl
  | cons a l ih =>
    intro t
    rw [List.filter_cons, List.foldlM_cons]
    by_cases hg : g a = true
    · rw [if_pos hg, if_pos hg, List.foldlM_cons]
      cases ha : step t a with
      | error e => rw [except_bind_error, except_bind_error]
      | ok t1 => rw [except_bind_ok, except_bind_ok]; exact ih t1
    · rw [if_neg hg, if_neg (by simp [Bool.eq_false_iff.mpr hg]), except_bind_ok]
      exact ih t

/-- Converse key lemma: a successful fixtures fold implies every
finished fixture's ids were present. -/
theorem foldlM_applyResult_ok_keys (names : List (Nat × String)) :
    ∀ (l : List FixtureRec) (t t' : List (Nat × Row)),
      l.foldlM (applyResult names) t = Except.ok t' →
      ∀ fx ∈ l, fx.finished_provisional = true →
        hasKey t fx.team_h = true ∧ hasKey t fx.team_a = true := by
  intro l
  induction l with
  | nil => intro t t' _ fx hfx; cases hfx
  | cons a l ih =>
    intro t t' hfold fx hfx hfin
    rw [List.foldlM_cons] at hfold
    cases ha : applyResult names t a with
    | error e => rw [ha, except_bind_error] at hfold; exact absurd hfold (by simp)
    | ok t1 =>
      rw [ha, except_bind_ok] at hfold
      rcases List.mem_cons.mp hfx with rfl | hfx'
      · rcases applyResult_cases names t fx hfin with
          ⟨_, he⟩ | ⟨_, _, he⟩ | ⟨h1, h2, _, _, _⟩
        · rw [he] at ha; exact absurd ha (by simp)
        · rw [he] at ha; exact absurd ha (by simp)
        · exact ⟨h1, h2⟩
      · have hpres := applyResult_ok_hasKey ha
        obtain ⟨u1, u2⟩ := ih t1 t' hfold fx hfx' hfin
        exact ⟨by rw [← hpres]; exact u1, by rw [← hpres]; exact u2⟩

theorem insertGe_map {α β : Type} (f : α → β) (ge1 : α → α → Bool)
    (ge2 : β → β → Bool) (hge : ∀ a b, ge2 (f a) (f b) = ge1 a b) (x : α) :
    ∀ l : List α, insertGe ge2 (f x) (l.map f) = (insertGe ge1 x l).map f := by
  intro l
  induction l with
  | nil => rfl
  | cons y ys ih =>
    rw [List.map_cons]
    by_cases h : ge1 x y = true
    · rw [insertGe_cons_pos (by rw [hge]; exact h), insertGe_cons_pos h]
      rfl
    · have hf : ge1 x y = false := Bool.eq_false_iff.mpr h
      rw [insertGe_cons_neg (by rw [hge]; exact hf), insertGe_cons_neg hf,
        List.map_cons, ih]

theorem sortByGe_map {α β : Type} (f : α → β) (ge1 : α → α → Bool)
    (ge2 : β → β → Bool) (hge : ∀ a b, ge2 (f a) (f b) = ge1 a b) :
    ∀ l : List α, sortByGe ge2 (l.map f) = (sortByGe ge1 l).map f := by
  intro l
  induction l with
  | nil => rfl
  | cons x xs ih =>
    rw [List.map_cons]
    show insertGe ge2 (f x) (sortByGe ge2 (xs.map f)) = _
    rw [ih, insertGe_map f ge1 ge2 hge]
    rfl

/-- Sorting the projected table is the projection of the sorted table:
both sorts compare the same `(Pts, GD, GF)` key. -/
theorem sortPrevTable_map (l : List (Nat × Row)) :
    sortPrevTable (l.map projPrev) = (sortTable l).map projPrev := by
  unfold sortPrevTable sortTable
  refine sortByGe_map projPrev _ _ ?_ l
  intro a b
  rfl

theorem findIdx_map_fst {α β : Type} (g : α → β) (id : Nat) :
    ∀ l : List (Nat × α),
      (l.map (fun e => (e.1, g e.2))).findIdx (fun e => e.1 = id) =
        l.findIdx (fun e => e.1 = id) := by
  intro l
  induction l with
  | nil => rfl
  | cons e es ih =>
    rw [List.map_cons, List.findIdx_cons, List.findIdx_cons]
    by_cases h : e.1 = id
    · simp [h]
    · simp [h, ih]

theorem updateEntry_ok_hasKey_true {α : Type} {t t1 : List (Nat × α)} {k : Nat}
    {f : α → α} (h : updateEntry t k f = Except.ok t1) : hasKey t k = true := by
  unfold updateEntry at h
  unfold hasKey
  by_cases hk : t.any (fun p => p.1 = k) = true
  · exact hk
  · rw [if_neg hk] at h
    exact absurd h (by simp)

/-- Pointwise projection identity for a home win: the main pipeline's
four per-key updates project to the previous pipeline's three. -/
theorem point_rel_win (th ta : Nat) (hs aw : Int) (w3 l4 : Row → Row)
    (hw3 : ∀ r : Row, (w3 r).pts = r.pts + 3 ∧ (w3 r).gd = r.gd ∧ (w3 r).gf = r.gf)
    (hl4 : ∀ r : Row, (l4 r).pts = r.pts ∧ (l4 r).gd = r.gd ∧ (l4 r).gf = r.gf)
    (k : Nat) (r : Row) :
    projPrevRow (keyApp ta l4 k (keyApp th w3 k (keyApp ta
        (fun r => { r with p := r.p + 1, gf := r.gf + aw, ga := r.ga + hs,
                           gd := r.gd + (aw - hs) }) k
      (keyApp th
        (fun r => { r with p := r.p + 1, gf := r.gf + hs, ga := r.ga + aw,
                           gd := r.gd + (hs - aw) }) k r)))) =
    keyApp th (fun e => { e with pts := e.pts + 3 }) k
      (keyApp ta (fun e : PrevEntry => { e with gf := e.gf + aw,
                                                 gd := e.gd + (aw - hs) }) k
      (keyApp th (fun e : PrevEntry => { e with gf := e.gf + hs,
                                                 gd := e.gd + (hs - aw) }) k (projPrevRow r))) := by
  unfold keyApp
  by_cases hk1 : k = th <;> by_cases hk2 : k = ta
  · simp only [if_pos hk1, if_pos hk2]
    obtain ⟨p4, g4, f4⟩ := hl4 (w3 _)
    obtain ⟨p3, g3, f3⟩ := hw3 _
    unfold projPrevRow
    rw [p4, g4, f4, p3, g3, f3]
  · simp only [if_pos hk1, if_neg hk2]
    obtain ⟨p3, g3, f3⟩ := hw3 _
    unfold projPrevRow
    rw [p3, g3, f3]
  · simp only [if_neg hk1, if_pos hk2]
    obtain ⟨p4, g4, f4⟩ := hl4 _
    unfold projPrevRow
    rw [p4, g4, f4]
  · simp only [if_neg hk1, if_neg hk2]

/-- Pointwise projection identity for an away win. -/
theorem point_rel_lose (th ta : Nat) (hs aw : Int) (w3 l4 : Row → Row)
    (hw3 : ∀ r : Row, (w3 r).pts = r.pts + 3 ∧ (w3 r).gd = r.gd ∧ (w3 r).gf = r.gf)
    (hl4 : ∀ r : Row, (l4 r).pts = r.pts ∧ (l4 r).gd = r.gd ∧ (l4 r).gf = r.gf)
    (k : Nat) (r : Row) :
    projPrevRow (keyApp th l4 k (keyApp ta w3 k (keyApp ta
        (fun r => { r with p := r.p + 1, gf := r.gf + aw, ga := r.ga + hs,
                           gd := r.gd + (aw - hs) }) k
      (keyApp th
        (fun r => { r with p := r.p + 1, gf := r.gf + hs, ga := r.ga + aw,
                           gd := r.gd + (hs - aw) }) k r)))) =
    keyApp ta (fun e => { e with pts := e.pts + 3 }) k
      (keyApp ta (fun e : PrevEntry => { e with gf := e.gf + aw,
                                                 gd := e.gd + (aw - hs) }) k
      (keyApp th (fun e : PrevEntry => { e with gf := e.gf + hs,
                                                 gd := e.gd + (hs - aw) }) k (projPrevRow r))) := by
  unfold keyApp
  by_cases hk1 : k = th <;> by_cases hk2 : k = ta
  · simp only [if_pos hk1, if_pos hk2]
    obtain ⟨p4, g4, f4⟩ := hl4 (w3 _)
    obtain ⟨p3, g3, f3⟩ := hw3 _
    unfold projPrevRow
    rw [p4, g4, f4, p3, g3, f3]
  · simp only [if_pos hk1, if_neg hk2]
    obtain ⟨p4, g4, f4⟩ := hl4 _
    unfold projPrevRow
    rw [p4, g4, f4]
  · simp only [if_neg hk1, if_pos hk2]
    obtain ⟨p3, g3, f3⟩ := hw3 _
    unfold projPrevRow
    rw [p3, g3, f3]
  · simp only [if_neg hk1, if_neg hk2]

/-- Pointwise projection identity for a draw. -/
theorem point_rel_draw (th ta : Nat) (hs aw : Int) (d3 d4 : Row → Row)
    (hd3 : ∀ r : Row, (d3 r).pts = r.pts + 1 ∧ (d3 r).gd = r.gd ∧ (d3 r).gf = r.gf)
    (hd4 : ∀ r : Row, (d4 r).pts = r.pts + 1 ∧ (d4 r).gd = r.gd ∧ (d4 r).gf = r.gf)
    (k : Nat) (r : Row) :
    projPrevRow (keyApp ta d4 k (keyApp th d3 k (keyApp ta
        (fun r => { r with p := r.p + 1, gf := r.gf + aw, ga := r.ga + hs,
                           gd := r.gd + (aw - hs) }) k
      (keyApp th
        (fun r => { r with p := r.p + 1, gf := r.gf + hs, ga := r.ga + aw,
                           gd := r.gd + (hs - aw) }) k r)))) =
    keyApp ta (fun e => { e with pts := e.pts + 1 }) k
      (keyApp th (fun e : PrevEntry => { e with pts := e.pts + 1 }) k
      (keyApp ta (fun e : PrevEntry => { e with gf := e.gf + aw,
                                                 gd := e.gd + (aw - hs) }) k
      (keyApp th (fun e : PrevEntry => { e with gf := e.gf + hs,
                                                 gd := e.gd + (hs - aw) }) k (projPrevRow r)))) := by
  unfold keyApp
  by_cases hk1 : k = th <;> by_cases hk2 : k = ta
  · simp only [if_pos hk1, if_pos hk2]
    obtain ⟨p4, g4, f4⟩ := hd4 (d3 _)
    obtain ⟨p3, g3, f3⟩ := hd3 _
    unfold projPrevRow
    rw [p4, g4, f4, p3, g3, f3]
  · simp only [if_pos hk1, if_neg hk2]
    obtain ⟨p3, g3, f3⟩ := hd3 _
    unfold projPrevRow
    rw [p3, g3, f3]
  · simp only [if_neg hk1, if_pos hk2]
    obtain ⟨p4, g4, f4⟩ := hd4 _
    unfold projPrevRow
    rw [p4, g4, f4]
  · simp only [if_neg hk1, if_neg hk2]

theorem hasKey_map_projPrev (t : List (Nat × Row)) (k : Nat) :
    hasKey (t.map projPrev) k = hasKey t k := by
  unfold hasKey
  rw [any_map_general]
  exact any_congrOn t (fun p _ => rfl)

theorem projPrev_pair (k : Nat) (r : Row) : projPrev (k, r) = (k, projPrevRow r) := rfl

/-- One step of the guarded main aggregation projects to one step of the
previous-table aggregation. -/
theorem applyPrevResult_rel (names : List (Nat × String)) (latest : Nat)
    {t t' : List (Nat × Row)} (fx : FixtureRec)
    (h : (if fx.finished_provisional && decide (fx.event < latest) then
            applyResult names t fx else Except.ok t) = Except.ok t') :
    applyPrevResult latest (t.map projPrev) fx = Except.ok (t'.map projPrev) := by
  by_cases hg : (fx.finished_provisional && decide (fx.event < latest)) = true
  case neg =>
    rw [if_neg hg] at h
    simp only [Except.ok.injEq] at h
    unfold applyPrevResult
    rw [if_neg hg, h]
  case pos =>
    rw [if_pos hg] at h
    have hsplit : fx.finished_provisional = true ∧ fx.event < latest := by simpa using hg
    obtain ⟨hfin, hltev⟩ := hsplit
    unfold applyResult at h
    rw [if_pos hfin] at h
    dsimp only at h
    unfold applyPrevResult
    rw [if_pos hg]
    dsimp only
    cases h1 : updateEntry t fx.team_h (fun r =>
        { r with p := r.p + 1, gf := r.gf + fx.team_h_score,
                 ga := r.ga + fx.team_a_score,
                 gd := r.gd + (fx.team_h_score - fx.team_a_score) }) with
    | error e => rw [h1, except_bind_error] at h; exact absurd h (by simp)
    | ok t1 =>
      have hh : hasKey t fx.team_h = true := updateEntry_ok_hasKey_true h1
      have ht1 := updateEntry_ok_eq_map h1
      rw [h1, except_bind_ok] at h
      cases h2 : updateEntry t1 fx.team_a (fun r =>
          { r with p := r.p + 1, gf := r.gf + fx.team_a_score,
                   ga := r.ga + fx.team_h_score,
                   gd := r.gd + (fx.team_a_score - fx.team_h_score) }) with
      | error e => rw [h2, except_bind_error] at h; exact absurd h (by simp)
      | ok t2 =>
        have hha : hasKey t fx.team_a = true := by
          have := updateEntry_ok_hasKey_true h2
          rwa [ht1, hasKey_map_entryMap] at this
        have ht2 := updateEntry_ok_eq_map h2
        rw [h2, except_bind_ok] at h
        rw [updateEntry_ok_entryMap _ (by rw [hasKey_map_projPrev]; exact hh),
          except_bind_ok,
          updateEntry_ok_entryMap _
            (by rw [hasKey_map_entryMap, hasKey_map_projPrev]; exact hha),
          except_bind_ok]
        by_cases hw : fx.team_h_score > fx.team_a_score
        · rw [if_pos hw] at h
          rw [if_pos hw]
          cases h3 : updateEntry t2 fx.team_h (fun r =>
              { r with w := r.w + 1, pts := r.pts + 3, form := r.form ++ ['W'],
                       formDetails := r.formDetails ++
                         [⟨'W', dictGetD names fx.team_a "Unknown",
                           scoreStr fx.team_h_score fx.team_a_score, fx.event, true⟩] }) with
          | error e => rw [h3, except_bind_error] at h; exact absurd h (by simp)
          | ok t3 =>
            have ht3 := updateEntry_ok_eq_map h3
            rw [h3, except_bind_ok] at h
            have ht' := updateEntry_ok_eq_map h
            rw [updateEntry_ok_entryMap _
              (by rw [hasKey_map_entryMap, hasKey_map_entryMap, hasKey_map_projPrev]
                  exact hh)]
            rw [ht', ht3, ht2, ht1]
            refine congrArg Except.ok ?_
            simp only [List.map_map]
            refine List.map_congr_left ?_
            intro p _
            rcases p with ⟨k, r⟩
            simp only [Function.comp_apply, projPrev_pair, entryMap_pair]
            refine congrArg (Prod.mk k) (Eq.symm (point_rel_win fx.team_h fx.team_a
              fx.team_h_score fx.team_a_score _ _ ?_ ?_ k r))
            · intro r
              exact ⟨rfl, rfl, rfl⟩
            · intro r
              exact ⟨rfl, rfl, rfl⟩
        · rw [if_neg hw] at h
          rw [if_neg hw]
          by_cases hl : fx.team_a_score > fx.team_h_score
          · rw [if_pos hl] at h
            rw [if_pos hl]
            cases h3 : updateEntry t2 fx.team_a (fun r =>
                { r with w := r.w + 1, pts := r.pts + 3, form := r.form ++ ['W'],
                         formDetails := r.formDetails ++
                           [⟨'W', dictGetD names fx.team_h "Unknown",
                             scoreStr fx.team_a_score fx.team_h_score, fx.event, false⟩] }) with
            | error e => rw [h3, except_bind_error] at h; exact absurd h (by simp)
            | ok t3 =>
              have ht3 := updateEntry_ok_eq_map h3
              rw [h3, except_bind_ok] at h
              have ht' := updateEntry_ok_eq_map h
              rw [updateEntry_ok_entryMap _
                (by rw [hasKey_map_entryMap, hasKey_map_entryMap, hasKey_map_projPrev]
                    exact hha)]
              rw [ht', ht3, ht2, ht1]
              refine congrArg Except.ok ?_
              simp only [List.map_map]
              refine List.map_congr_left ?_
              intro p _
              rcases p with ⟨k, r⟩
              simp only [Function.comp_apply, projPrev_pair, entryMap_pair]
              refine congrArg (Prod.mk k) (Eq.symm (point_rel_lose fx.team_h fx.team_a
                fx.team_h_score fx.team_a_score _ _ ?_ ?_ k r))
              · intro r
                exact ⟨rfl, rfl, rfl⟩
              · intro r
                exact ⟨rfl, rfl, rfl⟩
          · rw [if_neg hl] at h
            rw [if_neg hl]
            cases h3 : updateEntry t2 fx.team_h (fun r =>
                { r with d := r.d + 1, pts := r.pts + 1, form := r.form ++ ['D'],
                         formDetails := r.formDetails ++
                           [⟨'D', dictGetD names fx.team_a "Unknown",
                             scoreStr fx.team_h_score fx.team_a_score, fx.event, true⟩] }) with
            | error e => rw [h3, except_bind_error] at h; exact absurd h (by simp)
            | ok t3 =>
              have ht3 := updateEntry_ok_eq_map h3
              rw [h3, except_bind_ok] at h
              have ht' := updateEntry_ok_eq_map h
              rw [updateEntry_ok_entryMap _
                (by rw [hasKey_map_entryMap, hasKey_map_entryMap, hasKey_map_projPrev]
                    exact hh),
                except_bind_ok,
                updateEntry_ok_entryMap _
                  (by rw [hasKey_map_entryMap, hasKey_map_entryMap,
                        hasKey_map_entryMap, hasKey_map_projPrev]
                      exact hha)]
              rw [ht', ht3, ht2, ht1]
              refine congrArg Except.ok ?_
              simp only [List.map_map]
              refine List.map_congr_left ?_
              intro p _
              rcases p with ⟨k, r⟩
              simp only [Function.comp_apply, projPrev_pair, entryMap_pair]
              refine congrArg (Prod.mk k) (Eq.symm (point_rel_draw fx.team_h fx.team_a
                fx.team_h_score fx.team_a_score _ _ ?_ ?_ k r))
              · intro r
                exact ⟨rfl, rfl, rfl⟩
              · intro r
                exact ⟨rfl, rfl, rfl⟩

/-- The guarded main fold projects, step by step, to the previous-table
fold. -/
theorem prevAggregate_rel (names : List (Nat × String)) (latest : Nat) :
    ∀ (l : List FixtureRec) (t t' : List (Nat × Row)),
      l.foldlM (fun t fx =>
        if fx.finished_provisional && decide (fx.event < latest) then
          applyResult names t fx else Except.ok t) t = Except.ok t' →
      l.foldlM (applyPrevResult latest) (t.map projPrev) =
        Except.ok (t'.map projPrev) := by
  intro l
  induction l with
  | nil =>
    intro t t' h
    rw [List.foldlM_nil, except_pure_eq_ok] at h
    simp only [Except.ok.injEq] at h
    rw [List.foldlM_nil, except_pure_eq_ok, h]
  | cons a l ih =>
    intro t t' h
    rw [List.foldlM_cons] at h ⊢
    cases ha : (if a.finished_provisional && decide (a.event < latest) then
        applyResult names t a else Except.ok t) with
    | error e => rw [ha, except_bind_error] at h; exact absurd h (by simp)
    | ok t1 =>
      rw [ha, except_bind_ok] at h
      rw [applyPrevResult_rel names latest a ha, except_bind_ok]
      exact ih t1 t' h

/-- The guarded fold succeeds whenever every finished fixture's club ids
are present. -/
theorem foldlM_guard_ok (names : List (Nat × String)) (latest : Nat) :
    ∀ (l : List FixtureRec) (t : List (Nat × Row)),
      (∀ fx ∈ l, fx.finished_provisional = true →
        hasKey t fx.team_h = true ∧ hasKey t fx.team_a = true) →
      ∃ t', l.foldlM (fun t fx =>
          if fx.finished_provisional && decide (fx.event < latest) then
            applyResult names t fx else Except.ok t) t = Except.ok t' := by
  intro l
  induction l with
  | nil =>
    intro t _
    exact ⟨t, by rw [List.foldlM_nil, except_pure_eq_ok]⟩
  | cons a l ih =>
    intro t hkeys
    rw [List.foldlM_cons]
    by_cases hg : (a.finished_provisional && decide (a.event < latest)) = true
    · have hsplit : a.finished_provisional = true ∧ a.event < latest := by simpa using hg
      obtain ⟨hh, hha⟩ := hkeys a (List.mem_cons_self a l) hsplit.1
      rcases applyResult_cases names t a hsplit.1 with
        ⟨h1, _⟩ | ⟨_, h2, _⟩ | ⟨_, _, t1, hok, hk⟩
      · rw [hh] at h1; exact absurd h1 (by simp)
      · rw [hha] at h2; exact absurd h2 (by simp)
      · rw [if_pos hg, hok, except_bind_ok]
        exact ih t1 (by
          intro fx hfx hf
          obtain ⟨u1, u2⟩ := hkeys fx (List.mem_cons_of_mem a hfx) hf
          exact ⟨by rw [hk]; exact u1, by rw [hk]; exact u2⟩)
    · rw [if_neg hg, except_bind_ok]
      exact ih t (fun fx hfx hf => hkeys fx (List.mem_cons_of_mem a hfx) hf)

/-- C6: whenever `calcRanked` succeeds — its projection is exactly the
returned table — a club's `PrevPos` is the rank the club gets when the
same aggregation and the same (Pts, GD, GF) sort are re-run over only
the finished fixtures of rounds strictly before the latest finished
round (`specPrevRank`); with no finished fixtures at all, `PrevPos`
equals the current rank. -/
theorem c6_prev_positions (teams : List Club) (fixtures : List FixtureRec)
    (ranked : List RankedRow)
    (hok : calcRanked teams fixtures = Except.ok ranked) :
    calculate_league_table teams fixtures = Except.ok (ranked.map projectOut) ∧
    ((∃ fx ∈ fixtures, fx.finished_provisional = true) →
      ∀ rr ∈ ranked, rr.prevPos = specPrevRank teams fixtures rr.teamId) ∧
    ((∀ fx ∈ fixtures, fx.finished_provisional = false) →
      ∀ rr ∈ ranked, rr.prevPos = rr.pos) := by
  refine ⟨by unfold calculate_league_table; rw [hok]; rfl, ?_, ?_⟩
  · intro hfin
    rcases calcRanked_shape hok with ⟨agg, hagg, hne, hcase⟩
    rcases hcase with ⟨hev0, _⟩ | ⟨ev, evs, pagg, hev, hpagg, hr⟩
    · exfalso
      rcases hfin with ⟨fx, hfx, hf⟩
      have : fx.event ∈ completedEvents fixtures := by
        unfold completedEvents
        exact List.mem_map.mpr ⟨fx, List.mem_filter.mpr ⟨hfx, by simp [hf]⟩, rfl⟩
      rw [hev0] at this
      cases this
    · intro rr hrr
      set latest := maxEvent (ev :: evs) with hlatest
      have hkeys : ∀ fx ∈ fixtures, fx.finished_provisional = true →
          hasKey (initTable teams) fx.team_h = true ∧
          hasKey (initTable teams) fx.team_a = true := by
        intro fx hfx hf
        exact foldlM_applyResult_ok_keys (teamNames teams) fixtures _ _ hagg fx hfx hf
      obtain ⟨agg', hagg'⟩ := foldlM_guard_ok (teamNames teams) latest fixtures
        (initTable teams) hkeys
      have hprior : leagueAggregate teams (priorFixtures fixtures) =
          Except.ok agg' := by
        unfold leagueAggregate priorFixtures
        rw [hev, ← hlatest, foldlM_filter_guard]
        exact hagg'
      have hprev : prevAggregate teams fixtures latest =
          Except.ok (agg'.map projPrev) := by
        unfold prevAggregate
        rw [initPrevTable_eq_map]
        exact prevAggregate_rel (teamNames teams) latest fixtures _ _ hagg'
      have hpagg' : pagg = agg'.map projPrev := by
        rw [hprev] at hpagg
        simpa using hpagg.symm
      have hrank : ∀ id, prevRankOf (sortPrevTable pagg) id =
          specPrevRank teams fixtures id := by
        intro id
        unfold specPrevRank
        rw [hprior]
        unfold prevRankOf
        rw [hpagg', sortPrevTable_map]
        have hpp : (sortTable agg').map projPrev =
            (sortTable agg').map (fun e => (e.1, projPrevRow e.2)) := rfl
        rw [hpp, findIdx_map_fst]
      rw [hr] at hrr
      rcases List.mem_map.mp hrr with ⟨x, hx, rfl⟩
      exact hrank x.2.1
  · intro hnone
    rcases calcRanked_shape hok with ⟨agg, hagg, hne, hcase⟩
    rcases hcase with ⟨_, hr⟩ | ⟨ev, evs, pagg, hev, _, _⟩
    · intro rr hrr
      rw [hr] at hrr
      rcases List.mem_map.mp hrr with ⟨x, hx, rfl⟩
      rfl
    · exfalso
      have : completedEvents fixtures = [] := by
        unfold completedEvents
        rw [List.filter_eq_nil.mpr (by intro fx hfx; simp [hnone fx hfx])]
        rfl
      rw [hev] at this
      cases this

/-- Witness for C6: two clubs over two rounds (A beats B in round 1,
B beats A in round 2), plus the all-unfinished case. -/
theorem c6_prev_positions_witness :
    (calculate_league_table [⟨1, "A", 11⟩, ⟨2, "B", 22⟩]
        [⟨1, 2, 3, 1, 1, true, true⟩, ⟨2, 1, 2, 0, 2, true, true⟩] =
      Except.ok (((calcRanked [⟨1, "A", 11⟩, ⟨2, "B", 22⟩]
        [⟨1, 2, 3, 1, 1, true, true⟩, ⟨2, 1, 2, 0, 2, true, true⟩]).toOption.getD
          []).map projectOut) ∧
      ((∃ fx ∈ [(⟨1, 2, 3, 1, 1, true, true⟩ : FixtureRec),
          ⟨2, 1, 2, 0, 2, true, true⟩], fx.finished_provisional = true) →
        ∀ rr ∈ ((calcRanked [⟨1, "A", 11⟩, ⟨2, "B", 22⟩]
            [⟨1, 2, 3, 1, 1, true, true⟩, ⟨2, 1, 2, 0, 2, true, true⟩]).toOption.getD []),
          rr.prevPos = specPrevRank [⟨1, "A", 11⟩, ⟨2, "B", 22⟩]
            [⟨1, 2, 3, 1, 1, true, true⟩, ⟨2, 1, 2, 0, 2, true, true⟩] rr.teamId) ∧
      ((∀ fx ∈ [(⟨1, 2, 3, 1, 1, true, true⟩ : FixtureRec),
          ⟨2, 1, 2, 0, 2, true, true⟩], fx.finished_provisional = false) →
        ∀ rr ∈ ((calcRanked [⟨1, "A", 11⟩, ⟨2, "B", 22⟩]
            [⟨1, 2, 3, 1, 1, true, true⟩, ⟨2, 1, 2, 0, 2, true, true⟩]).toOption.getD []),
          rr.prevPos = rr.pos)) :=
  c6_prev_positions [⟨1, "A", 11⟩, ⟨2, "B", 22⟩]
    [⟨1, 2, 3, 1, 1, true, true⟩, ⟨2, 1, 2, 0, 2, true, true⟩] _ rfl

end FPL
